import Mathlib

/-!
The encoder and decoder registries of go-protoenc, and the codec.

A shallow embedding of `encoder.go`, `decoder.go` and `codec.go`.

The Go code is driven by the `reflect` package, so the embedding starts with a
small model of what `reflect` exposes to it: type identities (`GoType`), their
kind, arity accessors, method sets, assignability, printed names, and the argument
checks of `Value.Call`.  A Go `map` keyed by
`reflect.Type` is a function `GoType → Option _`.  A Go `panic` is the `error`
side of `Except Panic _`; operations that mutate a registry return the registry
they leave behind next to the outcome, so that the state after a recovered panic
is part of the model.  The `sync.RWMutex` of `encoder` guards a sequential
reading of the code and is not modelled.
-/

/-! ## The model of `reflect` -/

/-- The `reflect.Kind` values the code distinguishes; every other kind is `Other`. -/
inductive ReflectKind where
  | Ptr
  | Func
  | Interface
  | Other
  deriving DecidableEq, Repr

/-- Type identities, the values of `reflect.Type`.
`plain` is a type literal that is neither a pointer, a slice, a function nor an
interface (identified by its printed form), `iface` an interface literal with its
method names, `slice` a slice type, `func` a function type with its parameter
types, its result types and whether it is variadic (the last parameter of a
variadic function is its slice type), and `defined` a defined (named) type with
its underlying type, the methods declared with a value receiver and those
declared with a pointer receiver. -/
inductive GoType where
  | plain (descr : String)
  | iface (methods : List String)
  | ptr (elem : GoType)
  | slice (elem : GoType)
  | func (ins outs : List GoType) (variadic : Bool)
  | defined (pkg name : String) (underlying : GoType) (valueMethods ptrMethods : List String)

mutual
/-- Decidable equality of type identities (`==` on `reflect.Type`). -/
def GoType.decEq : (a b : GoType) → Decidable (a = b)
  | .plain d, .plain d' =>
    if h : d = d' then isTrue (by subst h; rfl)
    else isFalse (by intro e; injection e with e1; exact h e1)
  | .iface m, .iface m' =>
    if h : m = m' then isTrue (by subst h; rfl)
    else isFalse (by intro e; injection e with e1; exact h e1)
  | .ptr a, .ptr b =>
    match GoType.decEq a b with
    | isTrue h => isTrue (by subst h; rfl)
    | isFalse h => isFalse (by intro e; injection e with e1; exact h e1)
  | .slice a, .slice b =>
    match GoType.decEq a b with
    | isTrue h => isTrue (by subst h; rfl)
    | isFalse h => isFalse (by intro e; injection e with e1; exact h e1)
  | .func i o v, .func i' o' v' =>
    match GoType.decEqList i i', GoType.decEqList o o' with
    | isTrue h1, isTrue h2 =>
      if h : v = v' then isTrue (by subst h1 h2 h; rfl)
      else isFalse (by intro e; injection e with e1 e2 e3; exact h e3)
    | isFalse h, _ => isFalse (by intro e; injection e with e1 e2 e3; exact h e1)
    | _, isFalse h => isFalse (by intro e; injection e with e1 e2 e3; exact h e2)
  | .defined p n u v q, .defined p' n' u' v' q' =>
    match GoType.decEq u u' with
    | isTrue hu =>
      if h : p = p' ∧ n = n' ∧ v = v' ∧ q = q' then
        isTrue (by obtain ⟨h1, h2, h3, h4⟩ := h; subst hu h1 h2 h3 h4; rfl)
      else
        isFalse (by intro e; injection e with e1 e2 e3 e4 e5; exact h ⟨e1, e2, e4, e5⟩)
    | isFalse hu => isFalse (by intro e; injection e with e1 e2 e3 e4 e5; exact hu e3)
  | .plain _, .iface _ | .plain _, .ptr _ | .plain _, .slice _ | .plain _, .func .. | .plain _, .defined ..
  | .iface _, .plain _ | .iface _, .ptr _ | .iface _, .slice _ | .iface _, .func .. | .iface _, .defined ..
  | .ptr _, .plain _ | .ptr _, .iface _ | .ptr _, .slice _ | .ptr _, .func .. | .ptr _, .defined ..
  | .slice _, .plain _ | .slice _, .iface _ | .slice _, .ptr _ | .slice _, .func .. | .slice _, .defined ..
  | .func .., .plain _ | .func .., .iface _ | .func .., .ptr _ | .func .., .slice _ | .func .., .defined ..
  | .defined .., .plain _ | .defined .., .iface _ | .defined .., .ptr _ | .defined .., .slice _ | .defined .., .func .. => isFalse (by intro e; cases e)
/-- Decidable equality of parameter / result lists. -/
def GoType.decEqList : (a b : List GoType) → Decidable (a = b)
  | [], [] => isTrue rfl
  | [], _ :: _ => isFalse (by intro e; cases e)
  | _ :: _, [] => isFalse (by intro e; cases e)
  | a :: as, b :: bs =>
    match GoType.decEq a b, GoType.decEqList as bs with
    | isTrue h1, isTrue h2 => isTrue (by subst h1 h2; rfl)
    | isFalse h, _ => isFalse (by intro e; injection e with e1 e2; exact h e1)
    | _, isFalse h => isFalse (by intro e; injection e with e1 e2; exact h e2)
end

instance : DecidableEq GoType := GoType.decEq

/-- The sentinel errors declared in `encoder.go` and `decoder.go`. -/
inductive Sentinel where
  | ErrEncoderNil
  | ErrEncoderNotRegistered
  | ErrEncoderNotAFunction
  | ErrEncoderInputLengthMissMatch
  | ErrEncoderOutputLengthMissMatch
  | ErrEncoderOutputInvalid
  | ErrEncoderAlreadyRegistered
  | ErrEncoderOutNotAProto
  | ErrDecoderNil
  | ErrDecoderNotRegistered
  | ErrDecoderNotAFunction
  | ErrDecoderInputLengthMissMatch
  | ErrDecoderOutputLengthMissMatch
  | ErrDecoderInputInvalid
  | ErrDecoderAlreadyRegistered
  deriving DecidableEq, Repr

/-- The text each sentinel was created with (`errors.New`). -/
def Sentinel.text : Sentinel → String
  | .ErrEncoderNil => "encoder can not be nil"
  | .ErrEncoderNotRegistered => "encoder for given message not registered"
  | .ErrEncoderNotAFunction => "encoder must be a function"
  | .ErrEncoderInputLengthMissMatch =>
    "encoder must be a function that takes exactly one pointer argument"
  | .ErrEncoderOutputLengthMissMatch => "encoder func must return only one argument"
  | .ErrEncoderOutputInvalid => "encoder function output not a PB message"
  | .ErrEncoderAlreadyRegistered => "encoder function already registered"
  | .ErrEncoderOutNotAProto => "the encoded result it's not a proto message"
  | .ErrDecoderNil => "decoder can not be nil"
  | .ErrDecoderNotRegistered => "decoder for given message not registered"
  | .ErrDecoderNotAFunction => "decoder must be a function"
  | .ErrDecoderInputLengthMissMatch =>
    "decoder must be a function that takes exactly one input argument"
  | .ErrDecoderOutputLengthMissMatch => "decoder func must return only one argument"
  | .ErrDecoderInputInvalid =>
    "decoder function input does not implements proto.Message interface"
  | .ErrDecoderAlreadyRegistered => "decoder function already registered"

/-- A Go `error` value: the sentinel it is or wraps (what `errors.Is` finds), and
its `Error()` text. -/
structure GoError where
  wraps : Option Sentinel
  text : String
  deriving DecidableEq, Repr

/-- A sentinel used as an error value, as in `panic(ErrEncoderNil)`. -/
def GoError.ofSentinel (s : Sentinel) : GoError :=
  ⟨some s, s.text⟩

/-- The error built by `fmt.Errorf("%w: " + rest, s, ...)`. -/
def GoError.wrapf (s : Sentinel) (rest : String) : GoError :=
  ⟨some s, s.text ++ ": " ++ rest⟩

/-- What a `panic` carries: an error value handed to `panic`, or a fault raised by
the Go runtime or by `reflect` itself. -/
inductive Panic where
  | error (e : GoError)
  | runtime (text : String)
  deriving DecidableEq, Repr

deriving instance DecidableEq for Except

/-- The runtime fault of calling a method on a nil `reflect.Type`. -/
def nilDereference : Panic :=
  .runtime "runtime error: invalid memory address or nil pointer dereference"

/-- Go `Kind()` of a type: that of its underlying type. -/
def GoType.Kind : GoType → ReflectKind
  | .plain _ => .Other
  | .iface _ => .Interface
  | .ptr _ => .Ptr
  | .slice _ => .Other
  | .func _ _ _ => .Func
  | .defined _ _ u _ _ => u.Kind

/-- Go `NumIn()`: the number of parameters of a function type; `reflect` panics on
any other type. -/
def GoType.NumIn : GoType → Except Panic Nat
  | .func ins _ _ => .ok ins.length
  | .defined _ _ u _ _ => u.NumIn
  | _ => .error (.runtime "reflect: NumIn of non-func type")

/-- Go `NumOut()`: the number of results of a function type. -/
def GoType.NumOut : GoType → Except Panic Nat
  | .func _ outs _ => .ok outs.length
  | .defined _ _ u _ _ => u.NumOut
  | _ => .error (.runtime "reflect: NumOut of non-func type")

/-- Go `In(i)`: the type of the i-th parameter; `reflect` panics on a type that is
not a function and on an index out of range. -/
def GoType.In : GoType → Nat → Except Panic GoType
  | .func ins _ _, i =>
    match ins.get? i with
    | some t => .ok t
    | none => .error (.runtime "runtime error: index out of range")
  | .defined _ _ u _ _, i => u.In i
  | _, _ => .error (.runtime "reflect: In of non-func type")

/-- Go `Out(i)`: the type of the i-th result. -/
def GoType.Out : GoType → Nat → Except Panic GoType
  | .func _ outs _, i =>
    match outs.get? i with
    | some t => .ok t
    | none => .error (.runtime "runtime error: index out of range")
  | .defined _ _ u _ _, i => u.Out i
  | _, _ => .error (.runtime "reflect: Out of non-func type")

/-- Go `IsVariadic()`: whether the last parameter of a function type is a
`...` parameter; `reflect` panics on a type that is not a function. -/
def GoType.IsVariadic : GoType → Except Panic Bool
  | .func _ _ variadic => .ok variadic
  | .defined _ _ u _ _ => u.IsVariadic
  | _ => .error (.runtime "reflect: IsVariadic of non-func type")

/-- Go `Elem()` of a slice or pointer type: its element type; `reflect` panics on
a type that has none. -/
def GoType.Elem : GoType → Except Panic GoType
  | .slice e => .ok e
  | .ptr e => .ok e
  | .defined _ _ u _ _ => u.Elem
  | _ => .error (.runtime "reflect: Elem of invalid type")

/-- The underlying type: a defined type has that of its definition, every other
type is its own underlying type. -/
def GoType.underlying : GoType → GoType
  | .defined _ _ u _ _ => u.underlying
  | t => t

/-- Whether the type is a defined (named) type. -/
def GoType.hasName : GoType → Bool
  | .defined _ _ _ _ _ => true
  | _ => false

/-- The method set of a type: an interface has its own methods, a defined type
the methods with a value receiver, a pointer to a defined type those with either
receiver (none when the defined type is itself a pointer or an interface). -/
def GoType.methodSet : GoType → List String
  | .iface ms => ms
  | .defined _ _ u vm _ => if u.Kind = .Interface then u.methodSet else vm
  | .ptr (.defined _ _ u vm pm) =>
    if u.Kind = .Interface ∨ u.Kind = .Ptr then [] else vm ++ pm
  | _ => []

/-- Go `t.Implements(u)` for an interface type `u`: every method of `u` is in the
method set of `t`.  (`reflect` panics when `u` is not an interface type; the code
passes `protoType` only, and the model answers `false` there.) -/
def GoType.Implements (t u : GoType) : Bool :=
  decide (u.Kind = .Interface) && u.methodSet.all (fun m => decide (m ∈ t.methodSet))

/-- Go `x.AssignableTo(t)`: the types are identical, or they have identical
underlying types and at most one of them is a defined type, or `t` is an
interface type that `x` implements. -/
def GoType.AssignableTo (x t : GoType) : Bool :=
  decide (x = t) ||
    (!(x.hasName && t.hasName) && decide (x.underlying = t.underlying)) ||
    x.Implements t

/-- Go `Name()`: the name of a defined type, empty for every other type. -/
def GoType.Name : GoType → String
  | .defined _ name _ _ _ => name
  | _ => ""

/-- The printed parameter list of a variadic function: the last parameter, a
slice type printed `[]E`, is printed `...E`. -/
def variadicParams : List String → List String
  | [] => []
  | [s] => ["..." ++ s.drop 2]
  | s :: t :: ss => s :: variadicParams (t :: ss)

mutual
/-- The printed form of a type, `String()` of `reflect.Type`, which is also what
the verbs `%s` (on a `reflect.Type`) and `%T` (on a value of the type) print. -/
def GoType.typeString : GoType → String
  | .plain d => d
  | .iface ms => "interface \x7b " ++ "; ".intercalate ms ++ " \x7d"
  | .ptr e => "*" ++ e.typeString
  | .slice e => "[]" ++ e.typeString
  | .func ins outs variadic =>
    "func(" ++ ", ".intercalate
        (if variadic then variadicParams (GoType.typeStrings ins) else GoType.typeStrings ins)
      ++ ")"
      ++ (match outs with
          | [] => ""
          | [o] => " " ++ o.typeString
          | o :: os => " (" ++ ", ".intercalate (GoType.typeStrings (o :: os)) ++ ")")
  | .defined pkg name _ _ _ => if pkg = "" then name else pkg ++ "." ++ name
/-- The printed forms of a list of types. -/
def GoType.typeStrings : List GoType → List String
  | [] => []
  | t :: ts => t.typeString :: GoType.typeStrings ts
end

/-- A Go value held in a non-nil interface: its dynamic type and its content. -/
structure GoValue where
  typ : GoType
  payload : Nat
  deriving DecidableEq

/-- An interface value (`interface{}`, `proto.Message`): nil, or a dynamic value. -/
abbrev Any := Option GoValue

/-- A non-nil value handed to `Register`, as `reflect.ValueOf` sees it: its
dynamic type and, for a function value that is not nil, what the Go call `f(x)`
with the one argument `x` yields once the result is read back with `Interface()`
(nil for a nil interface result).  The body is a total function: a callable that
itself panics is not represented. -/
structure FnValue where
  typ : GoType
  impl : Option (GoValue → Any)

/-- The `interface{}` argument of `Register`: nil, or a value. -/
abbrev Callable := Option FnValue

/-- Go `reflect.ValueOf`: the value itself; for the nil interface the zero
`Value`, which has no usable type and cannot be called. -/
def ValueOf (x : Callable) : FnValue :=
  match x with
  | some fn => fn
  | none => { typ := .plain "<invalid reflect.Value>", impl := none }

/-- Go `reflect.Value.Call` with the one argument `arg`, followed by
`result[0].Interface()`; the body of the function value stands for the Go call
`f(arg)`.  In source order: the value must be a function and must not be nil; a
function that is not variadic must have exactly one parameter, to which the type
of `arg` must be assignable; a variadic function may have one parameter before
the `...` parameter, which then takes `arg`, and otherwise `arg` is the one
element of the `...` parameter and its type must be assignable to the element
type of that parameter.  Every violation is a `reflect` panic. -/
def FnValue.Call (fn : FnValue) (arg : GoValue) : Except Panic Any :=
  if fn.typ.Kind ≠ .Func then
    .error (.runtime "reflect: call of reflect.Value.Call on non-func Value")
  else
    match fn.impl with
    | none => .error (.runtime "reflect.Value.Call: call of nil function")
    | some f =>
      match fn.typ.NumIn, fn.typ.IsVariadic with
      | .error p, _ => .error p
      | _, .error p => .error p
      | .ok numIn, .ok isVariadic =>
        let n := if isVariadic then numIn - 1 else numIn
        if 1 < n then
          .error (.runtime "reflect: Call with too few input arguments")
        else if !isVariadic && n < 1 then
          .error (.runtime "reflect: Call with too many input arguments")
        else
          match fn.typ.In 0 with
          | .error p => .error p
          | .ok targ =>
            if n = 1 then
              if arg.typ.AssignableTo targ then .ok (f arg)
              else
                .error (.runtime ("reflect: Call using " ++ arg.typ.typeString
                  ++ " as type " ++ targ.typeString))
            else
              match targ.Elem with
              | .error p => .error p
              | .ok elem =>
                if arg.typ.AssignableTo elem then .ok (f arg)
                else
                  .error (.runtime ("reflect: cannot use " ++ arg.typ.typeString
                    ++ " as type " ++ elem.typeString ++ " in Call"))

/-- The `proto.Message` interface type held in the package variable `protoType`:
`reflect.TypeOf((*proto.Message)(nil)).Elem()`. -/
def protoType : GoType :=
  .defined "protoreflect" "ProtoMessage" (.iface ["ProtoReflect"]) [] []

/-- The type assertion `x.(proto.Message)`: it holds for a non-nil interface
whose dynamic type implements `proto.Message`. -/
def assertProto (x : Any) : Option GoValue :=
  match x with
  | none => none
  | some v => if v.typ.Implements protoType then some v else none

/-- Whether the result `r` of a call has the declared result type `o`: a result
of interface type is nil or a value whose dynamic type implements the
interface, a result of any other type is a value of exactly that type. -/
def resultTyped (o : GoType) (r : Any) : Bool :=
  match r with
  | none => decide (o.Kind = .Interface)
  | some w =>
    decide (w.typ.Kind ≠ .Interface) &&
      (if o.Kind = .Interface then w.typ.Implements o else decide (w.typ = o))

/-- The map update `m[k] = v`. -/
def mapSet {α : Type} (m : GoType → Option α) (k : GoType) (v : α) : GoType → Option α :=
  fun k' => if k' = k then some v else m k'

/-! ## `encoder.go` -/

/-- The `encoder` struct: the `encoders` map and the cached `protoType`. -/
structure encoder where
  encoders : GoType → Option FnValue
  protoType : GoType

/-- Go `NewEncoder`: an empty registry. -/
def NewEncoder : encoder :=
  { encoders := fun _ => none, protoType := protoType }

/-- Go `reflectEncoderFunc`: the signature checks on an encoder callable, in source
order; the function type on success. -/
def reflectEncoderFunc (encoderFn : Callable) : Except Panic GoType :=
  match encoderFn with
  | none => .error (.error (.ofSentinel .ErrEncoderNil))
  | some fn =>
    let encoderType := fn.typ
    if encoderType.Kind ≠ .Func then
      .error (.error (.ofSentinel .ErrEncoderNotAFunction))
    else
      match encoderType.NumIn with
      | .error p => .error p
      | .ok numIn =>
        if numIn ≠ 1 then
          .error (.error (.ofSentinel .ErrEncoderInputLengthMissMatch))
        else
          match encoderType.NumOut with
          | .error p => .error p
          | .ok numOut =>
            if numOut ≠ 1 then
              .error (.error (.ofSentinel .ErrEncoderOutputLengthMissMatch))
            else
              match encoderType.Out 0 with
              | .error p => .error p
              | .ok out =>
                if !out.Implements protoType then
                  .error (.error (.ofSentinel .ErrEncoderOutputInvalid))
                else
                  .ok encoderType

/-- Go `(*encoder).Register`: the outcome and the registry it leaves behind. -/
def encoder.Register (e : encoder) (encoderFn : Callable) : Except Panic Unit × encoder :=
  match reflectEncoderFunc encoderFn with
  | .error p => (.error p, e)
  | .ok encoderType =>
    match encoderType.In 0 with
    | .error p => (.error p, e)
    | .ok argType =>
      if (e.encoders argType).isSome then
        match encoderType.Out 0 with
        | .error p => (.error p, e)
        | .ok out =>
          let details := "func (" ++ argType.typeString ++ ") " ++ out.typeString ++ " \x7b ... \x7d"
          (.error (.error (.wrapf .ErrEncoderAlreadyRegistered details)), e)
      else
        (.ok (), { e with encoders := mapSet e.encoders argType (ValueOf encoderFn) })

/-- Go `(*encoder).Encode`: a panic, or the returned pair `(proto.Message, error)`. -/
def encoder.Encode (e : encoder) (msg : Any) : Except Panic (Any × Option GoError) :=
  match msg with
  | none => .error nilDereference
  | some v =>
    let msgType := v.typ
    let msgType := if msgType.Kind = .Ptr then v.typ else msgType
    match e.encoders msgType with
    | none =>
      .ok (none, some (.wrapf .ErrEncoderNotRegistered
        ("unable to encode message of type `" ++ v.typ.typeString
          ++ "` into its proto equivalent")))
    | some enc =>
      match enc.Call v with
      | .error p => .error p
      | .ok result =>
        match assertProto result with
        | none =>
          .ok (none, some (.wrapf .ErrEncoderOutNotAProto
            ("unable to encode message of type `" ++ v.typ.typeString
              ++ "` into its proto equivalent")))
        | some protoMsg => .ok (some protoMsg, none)

/-! ## `decoder.go` -/

/-- The `decoder` struct: the `decoders` map. -/
structure decoder where
  decoders : GoType → Option FnValue

/-- Go `NewDecoder`: an empty registry. -/
def NewDecoder : decoder :=
  { decoders := fun _ => none }

/-- Go `reflectDecoderFunc`: the signature checks on a decoder callable, in source
order.  There is no nil check here: `reflect.TypeOf(nil)` is nil and `Kind()` on
it is a runtime fault. -/
def reflectDecoderFunc (decoderFn : Callable) : Except Panic GoType :=
  match decoderFn with
  | none => .error nilDereference
  | some fn =>
    let decoderType := fn.typ
    if decoderType.Kind ≠ .Func then
      .error (.error (.ofSentinel .ErrDecoderNotAFunction))
    else
      match decoderType.NumIn with
      | .error p => .error p
      | .ok numIn =>
        if numIn ≠ 1 then
          .error (.error (.ofSentinel .ErrDecoderInputLengthMissMatch))
        else
          match decoderType.NumOut with
          | .error p => .error p
          | .ok numOut =>
            if numOut ≠ 1 then
              .error (.error (.ofSentinel .ErrDecoderOutputLengthMissMatch))
            else
              match decoderType.In 0 with
              | .error p => .error p
              | .ok inp =>
                if !inp.Implements protoType then
                  .error (.error (.ofSentinel .ErrDecoderInputInvalid))
                else
                  .ok decoderType

/-- Go `(*decoder).Register`: the outcome and the registry it leaves behind. -/
def decoder.Register (e : decoder) (decoderFn : Callable) : Except Panic Unit × decoder :=
  match decoderFn with
  | none => (.error (.error (.ofSentinel .ErrDecoderNil)), e)
  | some fn =>
    match reflectDecoderFunc decoderFn with
    | .error p => (.error p, e)
    | .ok decoderType =>
      match decoderType.In 0 with
      | .error p => (.error p, e)
      | .ok argType =>
        if (e.decoders argType).isSome then
          let details := "fn(" ++ argType.Name ++ ")"
          (.error (.error (.wrapf .ErrDecoderAlreadyRegistered details)), e)
        else
          (.ok (), { e with decoders := mapSet e.decoders argType fn })

/-- Go `(*decoder).Decode`: a panic, or the returned pair `(interface{}, error)`. -/
def decoder.Decode (e : decoder) (msg : Any) : Except Panic (Any × Option GoError) :=
  match msg with
  | none =>
    .ok (none, some (.wrapf .ErrDecoderNotRegistered "cannot decode a nil message"))
  | some v =>
    let msgType := v.typ
    let msgType := if msgType.Kind = .Ptr then v.typ else msgType
    match e.decoders msgType with
    | none =>
      .ok (none, some (.wrapf .ErrDecoderNotRegistered
        ("message type was `" ++ v.typ.typeString ++ "`")))
    | some dec =>
      match dec.Call v with
      | .error p => .error p
      | .ok result => .ok (result, none)

/-! ## `codec.go` -/

/-- The `codec` struct: one encoder registry and one decoder registry. -/
structure codec where
  encoder : encoder
  decoder : decoder

/-- Go `NewCodec`: two empty registries. -/
def NewCodec : codec :=
  { encoder := NewEncoder, decoder := NewDecoder }

/-- The error of `validatePair`, built with `fmt.Errorf` without `%w`. -/
def pairMismatch (a b : GoType) : GoError :=
  ⟨none, "input/output types do not match: " ++ a.typeString ++ " != " ++ b.typeString⟩

/-- Go `(*codec).validatePair`: both signature checks, then the comparison of the
encoder's parameter type with the decoder's result type. -/
def codec.validatePair (_c : codec) (encoderFn decoderFn : Callable) : Except Panic Unit :=
  match reflectEncoderFunc encoderFn with
  | .error p => .error p
  | .ok encoderR =>
    match reflectDecoderFunc decoderFn with
    | .error p => .error p
    | .ok decoderR =>
      match encoderR.In 0 with
      | .error p => .error p
      | .ok a =>
        match decoderR.Out 0 with
        | .error p => .error p
        | .ok b =>
          if a ≠ b then .error (.error (pairMismatch a b)) else .ok ()

/-- Go `(*codec).Register`: `validatePair`, then the encoder registration, then the
decoder registration; a panic stops the sequence where it occurs. -/
def codec.Register (c : codec) (encoderFn decoderFn : Callable) : Except Panic Unit × codec :=
  match c.validatePair encoderFn decoderFn with
  | .error p => (.error p, c)
  | .ok _ =>
    match c.encoder.Register encoderFn with
    | (.error p, enc) => (.error p, { c with encoder := enc })
    | (.ok _, enc) =>
      match c.decoder.Register decoderFn with
      | (.error p, dec) => (.error p, { encoder := enc, decoder := dec })
      | (.ok _, dec) => (.ok (), { encoder := enc, decoder := dec })

/-- Go `(*codec).Encode`: delegation to the encoder registry. -/
def codec.Encode (c : codec) (msg : Any) : Except Panic (Any × Option GoError) :=
  c.encoder.Encode msg

/-- Go `(*codec).Decode`: delegation to the decoder registry. -/
def codec.Decode (c : codec) (msg : Any) : Except Panic (Any × Option GoError) :=
  c.decoder.Decode msg

/-! ## The types and callables of the test suite -/

/-- The struct `input` of `encoder_test.go`. -/
def input : GoType :=
  .defined "protoenc_test" "input" (.plain "struct \x7b\x7d") [] []

/-- The struct `myMessage` of `codec_test.go`. -/
def myMessage : GoType :=
  .defined "protoenc_test" "myMessage" (.plain "struct \x7b ts time.Time \x7d") [] []

/-- The generated message struct `timestamppb.Timestamp`; its `ProtoReflect`
method has a pointer receiver. -/
def timestamppbTimestamp : GoType :=
  .defined "timestamppb" "Timestamp" (.plain "struct") [] ["ProtoReflect"]

/-- The generated message struct `emptypb.Empty`. -/
def emptypbEmpty : GoType :=
  .defined "emptypb" "Empty" (.plain "struct") [] ["ProtoReflect"]

/-- A function value of type `func(a) o` that returns `r` on every argument. -/
def constFn (a o : GoType) (r : Any) : FnValue :=
  { typ := .func [a] [o] false, impl := some (fun _ => r) }

/-- The encoder of `TestCodec`, `func(*myMessage) *timestamppb.Timestamp`, with a
fixed result. -/
def encodeMyMessage : FnValue :=
  constFn (.ptr myMessage) (.ptr timestamppbTimestamp) (some ⟨.ptr timestamppbTimestamp, 7⟩)

/-- The decoder of `TestCodec`, `func(*timestamppb.Timestamp) *myMessage`, with a
fixed result. -/
def decodeMyMessage : FnValue :=
  constFn (.ptr timestamppbTimestamp) (.ptr myMessage) (some ⟨.ptr myMessage, 7⟩)

/-- A second encoder into the same wire type, `func(*input) *timestamppb.Timestamp`. -/
def encodeInput : FnValue :=
  constFn (.ptr input) (.ptr timestamppbTimestamp) (some ⟨.ptr timestamppbTimestamp, 9⟩)

/-- A second decoder from the same wire type, `func(*timestamppb.Timestamp) *input`. -/
def decodeInput : FnValue :=
  constFn (.ptr timestamppbTimestamp) (.ptr input) (some ⟨.ptr input, 9⟩)

/-- A nil function value of the well-formed encoder type
`func(*input) *emptypb.Empty`, as in `var f func(*input) *emptypb.Empty`. -/
def nilEncoderFunc : FnValue :=
  { typ := .func [.ptr input] [.ptr emptypbEmpty] false, impl := none }

/-- A nil function value of the well-formed decoder type
`func(*timestamppb.Timestamp) *input`. -/
def nilDecoderFunc : FnValue :=
  { typ := .func [.ptr timestamppbTimestamp] [.ptr input] false, impl := none }

/-! ## Error texts and sequences of calls -/

/-- The text `text` contains `name` as a contiguous part. -/
def textContains (text name : String) : Prop :=
  ∃ pre post : String, text = pre ++ name ++ post

/-- The calls a client makes on an encoder registry. -/
inductive encoderCall where
  | Register (encoderFn : Callable)
  | Encode (msg : Any)

/-- The encoder registry a call leaves behind, also when the call panics and the
panic is recovered: `Register` leaves what `(*encoder).Register` leaves, and
`Encode`, which only reads the map, leaves the registry it found. -/
def encoder.after (e : encoder) : encoderCall → encoder
  | .Register encoderFn => (e.Register encoderFn).2
  | .Encode _ => e

/-- The encoder registry after a sequence of calls. -/
def encoder.afterAll (e : encoder) (calls : List encoderCall) : encoder :=
  calls.foldl encoder.after e

/-- The calls a client makes on a decoder registry. -/
inductive decoderCall where
  | Register (decoderFn : Callable)
  | Decode (msg : Any)

/-- The decoder registry a call leaves behind: `Register` leaves what
`(*decoder).Register` leaves, and `Decode` only reads the map. -/
def decoder.after (e : decoder) : decoderCall → decoder
  | .Register decoderFn => (e.Register decoderFn).2
  | .Decode _ => e

/-- The decoder registry after a sequence of calls. -/
def decoder.afterAll (e : decoder) (calls : List decoderCall) : decoder :=
  calls.foldl decoder.after e

/-- The calls a client makes on a codec. -/
inductive codecCall where
  | Register (encoderFn decoderFn : Callable)
  | Encode (msg : Any)
  | Decode (msg : Any)

/-- The codec a call leaves behind, also when the call panics and the panic is
recovered: `Register` leaves what `(*codec).Register` leaves, and `Encode` and
`Decode` only read the two maps. -/
def codec.after (c : codec) : codecCall → codec
  | .Register encoderFn decoderFn => (c.Register encoderFn decoderFn).2
  | .Encode _ => c
  | .Decode _ => c

/-- The codec after a sequence of calls. -/
def codec.afterAll (c : codec) (calls : List codecCall) : codec :=
  calls.foldl codec.after c

/-- A variadic encoder `func(...*input) *emptypb.Empty`: its one parameter has
the slice type `[]*input`. -/
def variadicEncoder : FnValue :=
  { typ := .func [.slice (.ptr input)] [.ptr emptypbEmpty] true,
    impl := some (fun _ => some ⟨.ptr emptypbEmpty, 0⟩) }

/-! ## Facts about the model of `reflect` -/

theorem GoType.ptr_ne_self (T : GoType) : GoType.ptr T ≠ T := by
  intro h
  have hs := congrArg sizeOf h
  simp at hs

theorem GoType.NumIn_of_Func : (t : GoType) → t.Kind = .Func → ∃ n, t.NumIn = .ok n
  | .func ins _ _, _ => ⟨ins.length, by simp [GoType.NumIn]⟩
  | .defined _ _ u _ _, h => by
    simpa [GoType.NumIn] using GoType.NumIn_of_Func u (by simpa [GoType.Kind] using h)
  | .plain _, h => by simp [GoType.Kind] at h
  | .iface _, h => by simp [GoType.Kind] at h
  | .ptr _, h => by simp [GoType.Kind] at h
  | .slice _, h => by simp [GoType.Kind] at h

theorem GoType.NumOut_of_Func : (t : GoType) → t.Kind = .Func → ∃ n, t.NumOut = .ok n
  | .func _ outs _, _ => ⟨outs.length, by simp [GoType.NumOut]⟩
  | .defined _ _ u _ _, h => by
    simpa [GoType.NumOut] using GoType.NumOut_of_Func u (by simpa [GoType.Kind] using h)
  | .plain _, h => by simp [GoType.Kind] at h
  | .iface _, h => by simp [GoType.Kind] at h
  | .ptr _, h => by simp [GoType.Kind] at h
  | .slice _, h => by simp [GoType.Kind] at h

theorem GoType.In_of_NumIn : (t : GoType) → t.NumIn = .ok 1 → ∃ a, t.In 0 = .ok a
  | .func ins _ _, h => by
    simp only [GoType.NumIn, Except.ok.injEq] at h
    match ins, h with
    | [a], _ => exact ⟨a, by simp [GoType.In]⟩
  | .defined _ _ u _ _, h => by
    simpa [GoType.In] using GoType.In_of_NumIn u (by simpa [GoType.NumIn] using h)
  | .plain _, h => by simp [GoType.NumIn] at h
  | .iface _, h => by simp [GoType.NumIn] at h
  | .ptr _, h => by simp [GoType.NumIn] at h
  | .slice _, h => by simp [GoType.NumIn] at h

theorem GoType.Out_of_NumOut : (t : GoType) → t.NumOut = .ok 1 → ∃ a, t.Out 0 = .ok a
  | .func _ outs _, h => by
    simp only [GoType.NumOut, Except.ok.injEq] at h
    match outs, h with
    | [a], _ => exact ⟨a, by simp [GoType.Out]⟩
  | .defined _ _ u _ _, h => by
    simpa [GoType.Out] using GoType.Out_of_NumOut u (by simpa [GoType.NumOut] using h)
  | .plain _, h => by simp [GoType.NumOut] at h
  | .iface _, h => by simp [GoType.NumOut] at h
  | .ptr _, h => by simp [GoType.NumOut] at h
  | .slice _, h => by simp [GoType.NumOut] at h

theorem GoType.Implements_trans (d o p : GoType) (hdo : d.Implements o = true)
    (hop : o.Implements p = true) : d.Implements p = true := by
  simp only [GoType.Implements, Bool.and_eq_true, decide_eq_true_eq, List.all_eq_true] at *
  exact ⟨hop.1, fun m hm => hdo.2 m (hop.2 m hm)⟩

/-! ## The signature checks and the registrations, case by case -/

theorem reflectEncoderFunc_ok {encoderFn : Callable} {t : GoType}
    (h : reflectEncoderFunc encoderFn = .ok t) :
    ∃ fn a o, encoderFn = some fn ∧ fn.typ = t ∧ t.Kind = .Func ∧ t.NumIn = .ok 1 ∧
      t.NumOut = .ok 1 ∧ t.In 0 = .ok a ∧ t.Out 0 = .ok o ∧ o.Implements protoType = true := by
  unfold reflectEncoderFunc at h
  split at h
  · simp at h
  · rename_i fn
    simp only at h
    split at h
    · simp at h
    · rename_i hk
      split at h
      · simp at h
      · rename_i numIn hin
        split at h
        · simp at h
        · rename_i hn
          split at h
          · simp at h
          · rename_i numOut hout
            split at h
            · simp at h
            · rename_i hm
              split at h
              · simp at h
              · rename_i out ho
                split at h
                · simp at h
                · rename_i hi
                  simp only [Except.ok.injEq] at h
                  simp only [ne_eq, Decidable.not_not] at hk hn hm
                  subst hn hm
                  obtain ⟨a, ha⟩ := GoType.In_of_NumIn fn.typ hin
                  refine ⟨fn, a, out, rfl, h, h ▸ hk, h ▸ hin, h ▸ hout, h ▸ ha, h ▸ ho, ?_⟩
                  simpa using hi

theorem reflectDecoderFunc_ok {decoderFn : Callable} {t : GoType}
    (h : reflectDecoderFunc decoderFn = .ok t) :
    ∃ fn a o, decoderFn = some fn ∧ fn.typ = t ∧ t.Kind = .Func ∧ t.NumIn = .ok 1 ∧
      t.NumOut = .ok 1 ∧ t.In 0 = .ok a ∧ t.Out 0 = .ok o ∧ a.Implements protoType = true := by
  unfold reflectDecoderFunc at h
  split at h
  · simp [nilDereference] at h
  · rename_i fn
    simp only at h
    split at h
    · simp at h
    · rename_i hk
      split at h
      · simp at h
      · rename_i numIn hin
        split at h
        · simp at h
        · rename_i hn
          split at h
          · simp at h
          · rename_i numOut hout
            split at h
            · simp at h
            · rename_i hm
              split at h
              · simp at h
              · rename_i inp ha
                split at h
                · simp at h
                · rename_i hi
                  simp only [Except.ok.injEq] at h
                  simp only [ne_eq, Decidable.not_not] at hk hn hm
                  subst hn hm
                  obtain ⟨o, ho⟩ := GoType.Out_of_NumOut fn.typ hout
                  refine ⟨fn, inp, o, rfl, h, h ▸ hk, h ▸ hin, h ▸ hout, h ▸ ha, h ▸ ho, ?_⟩
                  simpa using hi

theorem reflectEncoderFunc_typ {fn : FnValue} {t : GoType}
    (h : reflectEncoderFunc (some fn) = .ok t) : fn.typ = t := by
  obtain ⟨fn', _, _, hfn, ht, _⟩ := reflectEncoderFunc_ok h
  cases hfn
  exact ht

theorem reflectDecoderFunc_typ {fn : FnValue} {t : GoType}
    (h : reflectDecoderFunc (some fn) = .ok t) : fn.typ = t := by
  obtain ⟨fn', _, _, hfn, ht, _⟩ := reflectDecoderFunc_ok h
  cases hfn
  exact ht

theorem encoder_Register_valid (e : encoder) {fn : FnValue} {t T O : GoType}
    (h : reflectEncoderFunc (some fn) = .ok t) (hin : t.In 0 = .ok T) (hout : t.Out 0 = .ok O) :
    e.Register (some fn) =
      if (e.encoders T).isSome then
        (.error (.error (.wrapf .ErrEncoderAlreadyRegistered
          ("func (" ++ T.typeString ++ ") " ++ O.typeString ++ " \x7b ... \x7d"))), e)
      else (.ok (), { e with encoders := mapSet e.encoders T fn }) := by
  unfold encoder.Register
  simp only [h, hin, hout, ValueOf]

theorem decoder_Register_valid (e : decoder) {fn : FnValue} {t T : GoType}
    (h : reflectDecoderFunc (some fn) = .ok t) (hin : t.In 0 = .ok T) :
    e.Register (some fn) =
      if (e.decoders T).isSome then
        (.error (.error (.wrapf .ErrDecoderAlreadyRegistered ("fn(" ++ T.Name ++ ")"))), e)
      else (.ok (), { e with decoders := mapSet e.decoders T fn }) := by
  unfold decoder.Register
  simp only [h, hin]

theorem encoder_Register_invalid (e : encoder) {encoderFn : Callable} {p : Panic}
    (h : reflectEncoderFunc encoderFn = .error p) : e.Register encoderFn = (.error p, e) := by
  unfold encoder.Register
  simp only [h]

theorem encoder_Register_ok {e e' : encoder} {encoderFn : Callable}
    (h : e.Register encoderFn = (.ok (), e')) :
    ∃ fn T O, encoderFn = some fn ∧ reflectEncoderFunc encoderFn = .ok fn.typ ∧
      fn.typ.In 0 = .ok T ∧ fn.typ.Out 0 = .ok O ∧ O.Implements protoType = true ∧
      e.encoders T = none ∧ e' = { e with encoders := mapSet e.encoders T fn } := by
  cases hr : reflectEncoderFunc encoderFn with
  | error p => rw [encoder_Register_invalid e hr] at h; simp at h
  | ok t =>
    obtain ⟨fn, a, o, hfn, ht, _, _, _, ha, ho, hi⟩ := reflectEncoderFunc_ok hr
    subst hfn
    rw [encoder_Register_valid e hr ha ho] at h
    split at h
    · simp at h
    · rename_i hs
      subst ht
      refine ⟨fn, a, o, rfl, rfl, ha, ho, hi, by simpa using hs, ?_⟩
      simp only [Prod.mk.injEq, true_and] at h
      exact h.symm

theorem decoder_Register_ok {e e' : decoder} {decoderFn : Callable}
    (h : e.Register decoderFn = (.ok (), e')) :
    ∃ fn T, decoderFn = some fn ∧ reflectDecoderFunc decoderFn = .ok fn.typ ∧
      fn.typ.In 0 = .ok T ∧ T.Implements protoType = true ∧
      e.decoders T = none ∧ e' = { e with decoders := mapSet e.decoders T fn } := by
  cases decoderFn with
  | none => simp [decoder.Register] at h
  | some fn =>
    cases hr : reflectDecoderFunc (some fn) with
    | error p => simp [decoder.Register, hr] at h
    | ok t =>
      obtain ⟨fn', a, o, hfn, ht, _, _, _, ha, ho, hi⟩ := reflectDecoderFunc_ok hr
      cases hfn
      rw [decoder_Register_valid e hr ha] at h
      split at h
      · simp at h
      · rename_i hs
        subst ht
        refine ⟨fn, a, rfl, rfl, ha, hi, by simpa using hs, ?_⟩
        simp only [Prod.mk.injEq, true_and] at h
        exact h.symm

theorem encoder_Register_shape {e e' : encoder} {fn : FnValue}
    (h : e.Register (some fn) = (.ok (), e')) :
    fn.typ.Kind = .Func ∧ fn.typ.NumIn = .ok 1 ∧ fn.typ.NumOut = .ok 1 := by
  obtain ⟨fn', _, _, hfn, hr, _⟩ := encoder_Register_ok h
  cases hfn
  obtain ⟨_, _, _, _, _, hk, hn, hm, _⟩ := reflectEncoderFunc_ok hr
  exact ⟨hk, hn, hm⟩

theorem decoder_Register_shape {e e' : decoder} {fn : FnValue}
    (h : e.Register (some fn) = (.ok (), e')) :
    fn.typ.Kind = .Func ∧ fn.typ.NumIn = .ok 1 ∧ fn.typ.NumOut = .ok 1 := by
  obtain ⟨fn', _, hfn, hr, _⟩ := decoder_Register_ok h
  cases hfn
  obtain ⟨_, _, _, _, _, hk, hn, hm, _⟩ := reflectDecoderFunc_ok hr
  exact ⟨hk, hn, hm⟩

/-! ## Registries over sequences of calls -/

theorem encoder_Register_error_state (e : encoder) (encoderFn : Callable)
    (h : (e.Register encoderFn).1 ≠ .ok ()) : (e.Register encoderFn).2 = e := by
  unfold encoder.Register at h ⊢
  split
  · rfl
  · rename_i hr
    simp only [hr] at h
    split
    · rfl
    · rename_i hi
      simp only [hi] at h
      split
      · split <;> rfl
      · rename_i hs
        simp [hs] at h

theorem decoder_Register_error_state (e : decoder) (decoderFn : Callable)
    (h : (e.Register decoderFn).1 ≠ .ok ()) : (e.Register decoderFn).2 = e := by
  unfold decoder.Register at h ⊢
  split
  · rfl
  · split
    · rfl
    · rename_i hr
      simp only [hr] at h
      split
      · rfl
      · rename_i hi
        simp only [hi] at h
        split
        · rfl
        · rename_i hs
          simp [hs] at h

theorem encoder_Register_keeps (e : encoder) (encoderFn : Callable) (T : GoType)
    (fn : FnValue) (h : e.encoders T = some fn) :
    (e.Register encoderFn).2.encoders T = some fn := by
  by_cases hok : (e.Register encoderFn).1 = .ok ()
  · obtain ⟨g, K, _, _, _, _, _, _, hnone, he'⟩ :=
      @encoder_Register_ok e (e.Register encoderFn).2 encoderFn (Prod.ext hok rfl)
    rw [he']
    have hne : T ≠ K := by
      intro hTK; rw [hTK, hnone] at h; cases h
    simp only [mapSet, hne, if_false, h]
  · rw [encoder_Register_error_state e encoderFn hok]; exact h

theorem decoder_Register_keeps (e : decoder) (decoderFn : Callable) (T : GoType)
    (fn : FnValue) (h : e.decoders T = some fn) :
    (e.Register decoderFn).2.decoders T = some fn := by
  by_cases hok : (e.Register decoderFn).1 = .ok ()
  · obtain ⟨g, K, _, _, _, _, hnone, he'⟩ :=
      @decoder_Register_ok e (e.Register decoderFn).2 decoderFn (Prod.ext hok rfl)
    rw [he']
    have hne : T ≠ K := by
      intro hTK; rw [hTK, hnone] at h; cases h
    simp only [mapSet, hne, if_false, h]
  · rw [decoder_Register_error_state e decoderFn hok]; exact h

theorem encoder_afterAll_keeps (calls : List encoderCall) :
    ∀ (e : encoder) (T : GoType) (fn : FnValue), e.encoders T = some fn →
      (e.afterAll calls).encoders T = some fn := by
  induction calls with
  | nil => intro e T fn h; exact h
  | cons c cs ih =>
    intro e T fn h
    show ((e.after c).afterAll cs).encoders T = some fn
    apply ih
    cases c with
    | Register encoderFn => exact encoder_Register_keeps e encoderFn T fn h
    | Encode msg => exact h

theorem decoder_afterAll_keeps (calls : List decoderCall) :
    ∀ (e : decoder) (T : GoType) (fn : FnValue), e.decoders T = some fn →
      (e.afterAll calls).decoders T = some fn := by
  induction calls with
  | nil => intro e T fn h; exact h
  | cons c cs ih =>
    intro e T fn h
    show ((e.after c).afterAll cs).decoders T = some fn
    apply ih
    cases c with
    | Register decoderFn => exact decoder_Register_keeps e decoderFn T fn h
    | Decode msg => exact h

/-! ## Dispatch -/

theorem mapSet_same {α : Type} (m : GoType → Option α) (k : GoType) (v : α) :
    mapSet m k v k = some v := by
  simp [mapSet]

theorem mapSet_other {α : Type} (m : GoType → Option α) {k k' : GoType} (v : α)
    (h : k' ≠ k) : mapSet m k v k' = m k' := by
  simp [mapSet, h]

theorem GoType.AssignableTo_self (t : GoType) : t.AssignableTo t = true := by
  simp [GoType.AssignableTo]

theorem FnValue_Call_exact (fn : FnValue) (f : GoValue → Any) (v : GoValue)
    (hf : fn.impl = some f) (hkind : fn.typ.Kind = .Func) (hn : fn.typ.NumIn = .ok 1)
    (hvar : fn.typ.IsVariadic = .ok false) (hin : fn.typ.In 0 = .ok v.typ) :
    fn.Call v = .ok (f v) := by
  simp [FnValue.Call, hf, hkind, hn, hvar, hin, GoType.AssignableTo_self]

theorem encoder_Encode_hit (e : encoder) (v : GoValue) (fn : FnValue) (f : GoValue → Any)
    (hk : e.encoders v.typ = some fn) (hf : fn.impl = some f)
    (hkind : fn.typ.Kind = .Func) (hn : fn.typ.NumIn = .ok 1)
    (hvar : fn.typ.IsVariadic = .ok false) (hin : fn.typ.In 0 = .ok v.typ) :
    e.Encode (some v) =
      match assertProto (f v) with
      | none =>
        .ok (none, some (.wrapf .ErrEncoderOutNotAProto
          ("unable to encode message of type `" ++ v.typ.typeString
            ++ "` into its proto equivalent")))
      | some protoMsg => .ok (some protoMsg, none) := by
  simp only [encoder.Encode, ite_self, hk, FnValue_Call_exact fn f v hf hkind hn hvar hin]

theorem encoder_Encode_miss (e : encoder) (v : GoValue) (hk : e.encoders v.typ = none) :
    e.Encode (some v) =
      .ok (none, some (.wrapf .ErrEncoderNotRegistered
        ("unable to encode message of type `" ++ v.typ.typeString
          ++ "` into its proto equivalent"))) := by
  simp only [encoder.Encode, ite_self, hk]

theorem decoder_Decode_hit (e : decoder) (v : GoValue) (fn : FnValue) (f : GoValue → Any)
    (hk : e.decoders v.typ = some fn) (hf : fn.impl = some f)
    (hkind : fn.typ.Kind = .Func) (hn : fn.typ.NumIn = .ok 1)
    (hvar : fn.typ.IsVariadic = .ok false) (hin : fn.typ.In 0 = .ok v.typ) :
    e.Decode (some v) = .ok (f v, none) := by
  simp only [decoder.Decode, ite_self, hk, FnValue_Call_exact fn f v hf hkind hn hvar hin]

theorem decoder_Decode_miss (e : decoder) (v : GoValue) (hk : e.decoders v.typ = none) :
    e.Decode (some v) =
      .ok (none, some (.wrapf .ErrDecoderNotRegistered
        ("message type was `" ++ v.typ.typeString ++ "`"))) := by
  simp only [decoder.Decode, ite_self, hk]

/-- A variadic encoder passes the signature checks and is stored under the slice
type of its parameter; `Encode` of a value of that slice type finds it, and
`reflect.Value.Call` panics because the slice is not assignable to the element
type of the `...` parameter. -/
theorem variadic_encoder_call_panics :
    (NewEncoder.Register (some variadicEncoder)).1 = .ok () ∧
    (NewEncoder.Register (some variadicEncoder)).2.Encode (some ⟨.slice (.ptr input), 0⟩)
      = .error (.runtime
          "reflect: cannot use []*protoenc_test.input as type *protoenc_test.input in Call") := by
  decide

theorem assertProto_of_resultTyped {O : GoType} {w : GoValue}
    (hO : O.Implements protoType = true) (hty : resultTyped O (some w) = true) :
    assertProto (some w) = some w := by
  have hw : w.typ.Implements protoType = true := by
    simp only [resultTyped, Bool.and_eq_true, decide_eq_true_eq] at hty
    by_cases hk : O.Kind = .Interface
    · simp only [hk, if_true] at hty
      exact GoType.Implements_trans _ _ _ hty.2 hO
    · simp only [hk, if_false, decide_eq_true_eq] at hty
      rw [hty.2]; exact hO
  simp [assertProto, hw]

/-! ## C1 -/

/-- C1, as stated, fails: the callable `func(*input) proto.Message { return nil }` of
`TestRegisterEncoder` is accepted by `Register` on an empty registry, and `Encode`
of a `*input` does not return the callable's (nil) result with no error: the
defensive type assertion turns it into `ErrEncoderOutNotAProto`. -/
theorem encode_nil_interface_result_is_error :
    (NewEncoder.Register (some (constFn (.ptr input) protoType none))).1 = .ok () ∧
    (constFn (.ptr input) protoType none).typ.In 0 = .ok (.ptr input) ∧
    (NewEncoder.Register (some (constFn (.ptr input) protoType none))).2.Encode
        (some ⟨.ptr input, 0⟩) ≠ .ok (none, none) ∧
    (NewEncoder.Register (some (constFn (.ptr input) protoType none))).2.Encode
        (some ⟨.ptr input, 0⟩) =
      .ok (none, some (.wrapf .ErrEncoderOutNotAProto
        "unable to encode message of type `*protoenc_test.input` into its proto equivalent")) := by
  decide

/-- C1, amended: when a function value `fn` that is not nil and not variadic, with
body `f`, parameter type `T` and result type `O`, was accepted by `Register`,
then in the registry it left and in every registry reached from it by further
calls, for `v` of exactly the type `T` (the result `f v` having the declared type
`O`), `Encode v` returns `f v` with no error provided `f v` is not the nil
interface; when `f v` is the nil interface (possible for an interface-typed
result only) `Encode` returns a nil message and an error wrapping
`ErrEncoderOutNotAProto`. -/
theorem encode_returns_registered_result (e e' : encoder) (fn : FnValue)
    (f : GoValue → Any) (T O : GoType) (v : GoValue) (calls : List encoderCall)
    (hreg : e.Register (some fn) = (.ok (), e'))
    (hin : fn.typ.In 0 = .ok T) (hout : fn.typ.Out 0 = .ok O)
    (hvar : fn.typ.IsVariadic = .ok false)
    (hf : fn.impl = some f) (hv : v.typ = T)
    (hty : resultTyped O (f v) = true) :
    (f v ≠ none → (e'.afterAll calls).Encode (some v) = .ok (f v, none)) ∧
    (f v = none → ∃ err, (e'.afterAll calls).Encode (some v) = .ok (none, some err) ∧
      err.wraps = some .ErrEncoderOutNotAProto) := by
  obtain ⟨hkind, hn, _⟩ := encoder_Register_shape hreg
  obtain ⟨fn', T', O', hfn, _, hin', hout', hO, _, he'⟩ := encoder_Register_ok hreg
  cases hfn
  rw [hin] at hin'; cases hin'
  rw [hout] at hout'; cases hout'
  have hk : (e'.afterAll calls).encoders v.typ = some fn := by
    apply encoder_afterAll_keeps
    rw [he', hv]; exact mapSet_same _ _ _
  rw [encoder_Encode_hit _ v fn f hk hf hkind hn hvar (hv ▸ hin)]
  constructor
  · intro hne
    cases hr : f v with
    | none => exact absurd hr hne
    | some w =>
      rw [hr] at hty
      rw [assertProto_of_resultTyped hO hty]
  · intro hnil
    rw [hnil]
    exact ⟨_, rfl, rfl⟩

theorem encode_returns_registered_result_witness :
    ((NewEncoder.Register (some encodeInput)).2.afterAll
        [.Register (some encodeMyMessage), .Encode none, .Register (some encodeInput)]).Encode
        (some ⟨.ptr input, 0⟩)
      = .ok (some ⟨.ptr timestamppbTimestamp, 9⟩, none) :=
  (encode_returns_registered_result NewEncoder _ encodeInput
    (fun _ => some ⟨.ptr timestamppbTimestamp, 9⟩) (.ptr input) (.ptr timestamppbTimestamp)
    ⟨.ptr input, 0⟩ [.Register (some encodeMyMessage), .Encode none, .Register (some encodeInput)]
    rfl rfl rfl rfl rfl rfl (by decide)).1 (by simp)

/-! ## The codec's pair check -/

theorem codec_validatePair_valid (c : codec) {encoderFn decoderFn : Callable}
    {tE tD a b : GoType}
    (hE : reflectEncoderFunc encoderFn = .ok tE) (hD : reflectDecoderFunc decoderFn = .ok tD)
    (ha : tE.In 0 = .ok a) (hb : tD.Out 0 = .ok b) :
    c.validatePair encoderFn decoderFn =
      if a ≠ b then .error (.error (pairMismatch a b)) else .ok () := by
  simp only [codec.validatePair, hE, hD, ha, hb]

theorem codec_validatePair_ok {c : codec} {encoderFn decoderFn : Callable}
    (h : c.validatePair encoderFn decoderFn = .ok ()) :
    ∃ tE tD a, reflectEncoderFunc encoderFn = .ok tE ∧ reflectDecoderFunc decoderFn = .ok tD ∧
      tE.In 0 = .ok a ∧ tD.Out 0 = .ok a := by
  cases hE : reflectEncoderFunc encoderFn with
  | error p => simp [codec.validatePair, hE] at h
  | ok tE =>
    cases hD : reflectDecoderFunc decoderFn with
    | error p => simp [codec.validatePair, hE, hD] at h
    | ok tD =>
      obtain ⟨_, a, _, _, _, _, _, _, ha, _, _⟩ := reflectEncoderFunc_ok hE
      obtain ⟨_, _, b, _, _, _, _, _, _, hb, _⟩ := reflectDecoderFunc_ok hD
      rw [codec_validatePair_valid c hE hD ha hb] at h
      by_cases hab : a = b
      · subst hab; exact ⟨tE, tD, a, rfl, rfl, ha, hb⟩
      · simp [hab] at h

theorem codec_Register_ok {c c' : codec} {encoderFn decoderFn : Callable}
    (h : c.Register encoderFn decoderFn = (.ok (), c')) :
    c.validatePair encoderFn decoderFn = .ok () ∧
      c.encoder.Register encoderFn = (.ok (), c'.encoder) ∧
      c.decoder.Register decoderFn = (.ok (), c'.decoder) := by
  unfold codec.Register at h
  split at h
  · simp at h
  · rename_i hv
    split at h
    · simp at h
    · rename_i u enc he
      split at h
      · simp at h
      · rename_i u' dec hd
        simp only [Prod.mk.injEq, true_and] at h
        subst h
        cases u; cases u'
        exact ⟨by rename_i x _; cases x; exact hv, he, hd⟩

theorem codec_Register_keeps (c : codec) (encoderFn decoderFn : Callable) :
    (∀ T fn, c.encoder.encoders T = some fn →
      (c.Register encoderFn decoderFn).2.encoder.encoders T = some fn) ∧
    (∀ T fn, c.decoder.decoders T = some fn →
      (c.Register encoderFn decoderFn).2.decoder.decoders T = some fn) := by
  have hE := encoder_Register_keeps c.encoder encoderFn
  have hD := decoder_Register_keeps c.decoder decoderFn
  unfold codec.Register
  split
  · exact ⟨fun _ _ h => h, fun _ _ h => h⟩
  · split
    · rename_i p enc he
      rw [he] at hE
      exact ⟨fun T fn h => hE T fn h, fun _ _ h => h⟩
    · rename_i u enc he
      rw [he] at hE
      split
      · rename_i p dec hd
        rw [hd] at hD
        exact ⟨fun T fn h => hE T fn h, fun T fn h => hD T fn h⟩
      · rename_i u' dec hd
        rw [hd] at hD
        exact ⟨fun T fn h => hE T fn h, fun T fn h => hD T fn h⟩

theorem codec_afterAll_keeps (calls : List codecCall) :
    ∀ (c : codec),
      (∀ T fn, c.encoder.encoders T = some fn →
        (c.afterAll calls).encoder.encoders T = some fn) ∧
      (∀ T fn, c.decoder.decoders T = some fn →
        (c.afterAll calls).decoder.decoders T = some fn) := by
  induction calls with
  | nil => intro c; exact ⟨fun _ _ h => h, fun _ _ h => h⟩
  | cons k ks ih =>
    intro c
    have hstep : (∀ T fn, c.encoder.encoders T = some fn →
          (c.after k).encoder.encoders T = some fn) ∧
        (∀ T fn, c.decoder.decoders T = some fn →
          (c.after k).decoder.decoders T = some fn) := by
      cases k with
      | Register encoderFn decoderFn => exact codec_Register_keeps c encoderFn decoderFn
      | Encode msg => exact ⟨fun _ _ h => h, fun _ _ h => h⟩
      | Decode msg => exact ⟨fun _ _ h => h, fun _ _ h => h⟩
    have hrest := ih (c.after k)
    show (∀ T fn, c.encoder.encoders T = some fn →
          ((c.after k).afterAll ks).encoder.encoders T = some fn) ∧
        (∀ T fn, c.decoder.decoders T = some fn →
          ((c.after k).afterAll ks).decoder.decoders T = some fn)
    exact ⟨fun T fn h => hrest.1 T fn (hstep.1 T fn h),
      fun T fn h => hrest.2 T fn (hstep.2 T fn h)⟩

/-! ## C2 -/

/-- C2, as stated, fails when the shared wire type `W` is an interface type: the
pair `encode : *myMessage → proto.Message`, `decode : proto.Message → *myMessage`
is accepted by `Codec.Register`, `Encode` of a `*myMessage` succeeds with a
`*timestamppb.Timestamp` message, and `Decode` of that message is keyed on its
concrete type and returns `ErrDecoderNotRegistered`, not `decode(encode(x))`. -/
theorem codec_round_trip_interface_wire_type_fails :
    (NewCodec.Register
      (some (constFn (.ptr myMessage) protoType (some ⟨.ptr timestamppbTimestamp, 7⟩)))
      (some (constFn protoType (.ptr myMessage) (some ⟨.ptr myMessage, 7⟩)))).1 = .ok () ∧
    (NewCodec.Register
      (some (constFn (.ptr myMessage) protoType (some ⟨.ptr timestamppbTimestamp, 7⟩)))
      (some (constFn protoType (.ptr myMessage) (some ⟨.ptr myMessage, 7⟩)))).2.Encode
        (some ⟨.ptr myMessage, 7⟩) = .ok (some ⟨.ptr timestamppbTimestamp, 7⟩, none) ∧
    (NewCodec.Register
      (some (constFn (.ptr myMessage) protoType (some ⟨.ptr timestamppbTimestamp, 7⟩)))
      (some (constFn protoType (.ptr myMessage) (some ⟨.ptr myMessage, 7⟩)))).2.Decode
        (some ⟨.ptr timestamppbTimestamp, 7⟩) =
      .ok (none, some (.wrapf .ErrDecoderNotRegistered
        "message type was `*timestamppb.Timestamp`")) := by
  decide

/-- C2, amended: when `Codec.Register(encode, decode)` succeeded with function
values that are not nil and not variadic, `encode : T → W` and `decode : W → T`,
and the wire type `W` is not an interface type, then in the codec it left and in
every codec reached from it by further calls, for every `x` of exact type `T`
(whose image under `encode` has the declared type `W`) `Encode x` succeeds with
the message `m = encode x`, and `Decode m` succeeds and returns
`decode (encode x)`; so `Decode (Encode x)` is `x` whenever `decode` sends
`encode x` back to `x`. -/
theorem codec_round_trip (c c' : codec) (encFn decFn : FnValue)
    (enc dec : GoValue → Any) (T W : GoType) (x : GoValue) (calls : List codecCall)
    (hreg : c.Register (some encFn) (some decFn) = (.ok (), c'))
    (hencT : encFn.typ.In 0 = .ok T) (hencW : encFn.typ.Out 0 = .ok W)
    (hdecW : decFn.typ.In 0 = .ok W)
    (hencVar : encFn.typ.IsVariadic = .ok false)
    (hdecVar : decFn.typ.IsVariadic = .ok false)
    (henc : encFn.impl = some enc) (hdec : decFn.impl = some dec)
    (hW : W.Kind ≠ .Interface)
    (hx : x.typ = T) (hty : resultTyped W (enc x) = true) :
    ∃ m, enc x = some m ∧
      (c'.afterAll calls).Encode (some x) = .ok (some m, none) ∧
      (c'.afterAll calls).Decode (some m) = .ok (dec m, none) ∧
      (dec m = some x → (c'.afterAll calls).Decode (some m) = .ok (some x, none)) := by
  obtain ⟨_, hE, hD⟩ := codec_Register_ok hreg
  obtain ⟨hkE', hnE, _⟩ := encoder_Register_shape hE
  obtain ⟨hkD', hnD, _⟩ := decoder_Register_shape hD
  obtain ⟨fnE, T', O', hfnE, _, hin', hout', hO, _, heE⟩ := encoder_Register_ok hE
  obtain ⟨fnD, W', hfnD, _, hinD, _, _, heD⟩ := decoder_Register_ok hD
  cases hfnE; cases hfnD
  rw [hencT] at hin'; cases hin'
  rw [hencW] at hout'; cases hout'
  rw [hdecW] at hinD; cases hinD
  obtain ⟨keepE, keepD⟩ := codec_afterAll_keeps calls c'
  cases hr : enc x with
  | none => simp [resultTyped, hr, hW] at hty
  | some m =>
    rw [hr] at hty
    have hm : m.typ = W := by
      simp only [resultTyped, hW, if_false, Bool.and_eq_true, decide_eq_true_eq] at hty
      exact hty.2
    have hkE : (c'.afterAll calls).encoder.encoders x.typ = some encFn := by
      apply keepE
      rw [heE, hx]; exact mapSet_same _ _ _
    have hkD : (c'.afterAll calls).decoder.decoders m.typ = some decFn := by
      apply keepD
      rw [heD, hm]; exact mapSet_same _ _ _
    have hEnc : (c'.afterAll calls).Encode (some x) = .ok (some m, none) := by
      unfold codec.Encode
      rw [encoder_Encode_hit _ x encFn enc hkE henc hkE' hnE hencVar (hx ▸ hencT), hr,
        assertProto_of_resultTyped hO hty]
    have hDec : (c'.afterAll calls).Decode (some m) = .ok (dec m, none) := by
      unfold codec.Decode
      exact decoder_Decode_hit _ m decFn dec hkD hdec hkD' hnD hdecVar (hm ▸ hdecW)
    exact ⟨m, rfl, hEnc, hDec, fun h => by rw [hDec, h]⟩

theorem codec_round_trip_witness :
    ∃ m, (fun _ => some ⟨.ptr timestamppbTimestamp, 7⟩ : GoValue → Any) ⟨.ptr myMessage, 7⟩
        = some m ∧
      ((NewCodec.Register (some encodeMyMessage) (some decodeMyMessage)).2.afterAll
        [.Register (some encodeInput) (some decodeInput), .Decode none]).Encode
          (some ⟨.ptr myMessage, 7⟩) = .ok (some m, none) ∧
      ((NewCodec.Register (some encodeMyMessage) (some decodeMyMessage)).2.afterAll
        [.Register (some encodeInput) (some decodeInput), .Decode none]).Decode (some m)
        = .ok ((fun _ => some ⟨.ptr myMessage, 7⟩ : GoValue → Any) m, none) ∧
      ((fun _ => some ⟨.ptr myMessage, 7⟩ : GoValue → Any) m = some ⟨.ptr myMessage, 7⟩ →
        ((NewCodec.Register (some encodeMyMessage) (some decodeMyMessage)).2.afterAll
          [.Register (some encodeInput) (some decodeInput), .Decode none]).Decode (some m)
          = .ok (some ⟨.ptr myMessage, 7⟩, none)) :=
  codec_round_trip NewCodec _ encodeMyMessage decodeMyMessage
    (fun _ => some ⟨.ptr timestamppbTimestamp, 7⟩) (fun _ => some ⟨.ptr myMessage, 7⟩)
    (.ptr myMessage) (.ptr timestamppbTimestamp) ⟨.ptr myMessage, 7⟩
    [.Register (some encodeInput) (some decodeInput), .Decode none]
    rfl rfl rfl rfl rfl rfl rfl rfl (by decide) rfl (by decide)

/-! ## C3 and C4 -/

/-- C3, as stated, fails: the encoder `func(*myMessage) *timestamppb.Timestamp` and
the decoder `func(*emptypb.Empty) *myMessage` are both valid, the encoder's
result type differs from the decoder's parameter type, and `Codec.Register`
accepts the pair. -/
theorem codec_register_accepts_unshared_wire_type :
    (constFn (.ptr myMessage) (.ptr timestamppbTimestamp)
      (some ⟨.ptr timestamppbTimestamp, 7⟩)).typ.Out 0 = .ok (.ptr timestamppbTimestamp) ∧
    (constFn (.ptr emptypbEmpty) (.ptr myMessage) (some ⟨.ptr myMessage, 7⟩)).typ.In 0
      = .ok (.ptr emptypbEmpty) ∧
    GoType.ptr timestamppbTimestamp ≠ GoType.ptr emptypbEmpty ∧
    (NewCodec.Register
      (some (constFn (.ptr myMessage) (.ptr timestamppbTimestamp)
        (some ⟨.ptr timestamppbTimestamp, 7⟩)))
      (some (constFn (.ptr emptypbEmpty) (.ptr myMessage) (some ⟨.ptr myMessage, 7⟩)))).1
      = .ok () := by
  decide

/-- C3, amended: for every pair of individually valid callables,
`Codec.Register` fails with the pair-mismatch fault whenever the encoder's
parameter type differs from the decoder's result type, and leaves the codec as it
was; the encoder's result type and the decoder's parameter type are not
compared. -/
theorem codec_register_pair_mismatch (c : codec) (encoderFn decoderFn : Callable)
    (tE tD a b : GoType)
    (hE : reflectEncoderFunc encoderFn = .ok tE) (hD : reflectDecoderFunc decoderFn = .ok tD)
    (ha : tE.In 0 = .ok a) (hb : tD.Out 0 = .ok b) (hab : a ≠ b) :
    c.Register encoderFn decoderFn = (.error (.error (pairMismatch a b)), c) := by
  unfold codec.Register
  rw [codec_validatePair_valid c hE hD ha hb]
  simp [hab]

theorem codec_register_pair_mismatch_witness :
    NewCodec.Register
      (some (constFn (.ptr myMessage) (.ptr timestamppbTimestamp)
        (some ⟨.ptr timestamppbTimestamp, 7⟩)))
      (some (constFn (.ptr timestamppbTimestamp) (.ptr input) (some ⟨.ptr input, 7⟩)))
      = (.error (.error (pairMismatch (.ptr myMessage) (.ptr input))), NewCodec) :=
  codec_register_pair_mismatch NewCodec _ _
    (.func [.ptr myMessage] [.ptr timestamppbTimestamp] false)
    (.func [.ptr timestamppbTimestamp] [.ptr input] false) (.ptr myMessage) (.ptr input)
    rfl rfl rfl rfl (by decide)

/-- C4: for every codec and every pair of individually valid callables,
`Codec.Register` panics with the "input/output types do not match" fault if and
only if the encoder's parameter type differs from the decoder's result type. -/
theorem codec_register_mismatch_iff (c : codec) (encoderFn decoderFn : Callable)
    (tE tD a b : GoType)
    (hE : reflectEncoderFunc encoderFn = .ok tE) (hD : reflectDecoderFunc decoderFn = .ok tD)
    (ha : tE.In 0 = .ok a) (hb : tD.Out 0 = .ok b) :
    (∃ x y, (c.Register encoderFn decoderFn).1 = .error (.error (pairMismatch x y))) ↔ a ≠ b := by
  constructor
  · rintro ⟨x, y, h⟩ hab
    subst hab
    obtain ⟨fnE, a', o, hfE, htE, _, _, _, ha', ho, _⟩ := reflectEncoderFunc_ok hE
    obtain ⟨fnD, w, _, hfD, htD, _, _, _, hw, _, _⟩ := reflectDecoderFunc_ok hD
    subst hfE hfD
    rw [ha] at ha'; cases ha'
    unfold codec.Register at h
    rw [codec_validatePair_valid c hE hD ha hb] at h
    simp only [ne_eq, not_true_eq_false, if_false] at h
    rw [encoder_Register_valid c.encoder hE ha ho, decoder_Register_valid c.decoder hD hw] at h
    by_cases h1 : (c.encoder.encoders a).isSome
    · simp [h1, pairMismatch, GoError.wrapf] at h
    · by_cases h2 : (c.decoder.decoders w).isSome
      · simp [h1, h2, pairMismatch, GoError.wrapf] at h
      · simp [h1, h2] at h
  · intro hab
    refine ⟨a, b, ?_⟩
    unfold codec.Register
    rw [codec_validatePair_valid c hE hD ha hb]
    simp [hab]

theorem codec_register_mismatch_iff_witness :
    (∃ x y, (NewCodec.Register
      (some (constFn (.ptr myMessage) (.ptr timestamppbTimestamp)
        (some ⟨.ptr timestamppbTimestamp, 7⟩)))
      (some (constFn (.ptr timestamppbTimestamp) (.ptr input) (some ⟨.ptr input, 7⟩)))).1
        = .error (.error (pairMismatch x y))) ↔ GoType.ptr myMessage ≠ GoType.ptr input :=
  codec_register_mismatch_iff NewCodec _ _
    (.func [.ptr myMessage] [.ptr timestamppbTimestamp] false)
    (.func [.ptr timestamppbTimestamp] [.ptr input] false) (.ptr myMessage) (.ptr input)
    rfl rfl rfl rfl

/-! ## C5 -/

/-- C5, as stated, fails: on the codec that holds the pair of `TestCodec`, the
registration of a second pair into the same wire type passes `validatePair`,
stores the encoder for `*input`, and then fails with the duplicate fault of the
decoder registry; the encoder registry has gained the entry for `*input`. -/
theorem codec_register_failure_keeps_encoder_entry :
    ((NewCodec.Register (some encodeMyMessage) (some decodeMyMessage)).2.Register
      (some encodeInput) (some decodeInput)).1
      = .error (.error (.wrapf .ErrDecoderAlreadyRegistered "fn()")) ∧
    ((NewCodec.Register (some encodeMyMessage) (some decodeMyMessage)).2.encoder.encoders
      (.ptr input)).isSome = false ∧
    (((NewCodec.Register (some encodeMyMessage) (some decodeMyMessage)).2.Register
      (some encodeInput) (some decodeInput)).2.encoder.encoders (.ptr input)).isSome = true := by
  decide

/-- C5, amended: when `Codec.Register` fails, the decoder registry is unchanged.
The encoder registry is unchanged too when the failure comes from `validatePair`
(an invalid callable or a pair mismatch) or from the encoder registry (a
duplicate).  In the remaining case, where `validatePair` and the encoder
registration succeed, the failure is the duplicate fault of the decoder
registry, raised after the encoder was stored: the encoder registry is the one
the successful encoder registration left, and it holds the new encoder under a
key that was free before. -/
theorem codec_register_failure_state (c c' : codec) (encoderFn decoderFn : Callable)
    (p : Panic) (h : c.Register encoderFn decoderFn = (.error p, c')) :
    c'.decoder = c.decoder ∧
    (c.validatePair encoderFn decoderFn ≠ .ok () → c' = c) ∧
    ((c.encoder.Register encoderFn).1 ≠ .ok () → c' = c) ∧
    (c.validatePair encoderFn decoderFn = .ok () →
      (c.encoder.Register encoderFn).1 = .ok () →
        c'.encoder = (c.encoder.Register encoderFn).2 ∧
        (∃ fn T, encoderFn = some fn ∧ fn.typ.In 0 = .ok T ∧
          c.encoder.encoders T = none ∧ c'.encoder.encoders T = some fn) ∧
        (∃ err, p = .error err ∧ err.wraps = some .ErrDecoderAlreadyRegistered)) := by
  unfold codec.Register at h
  split at h
  · rename_i p' hv
    simp only [Prod.mk.injEq, Except.error.injEq] at h
    obtain ⟨_, rfl⟩ := h
    exact ⟨rfl, fun _ => rfl, fun _ => rfl, fun hok => by rw [hv] at hok; cases hok⟩
  · rename_i u hv
    cases u
    split at h
    · rename_i p' enc he
      have hst : enc = c.encoder := by
        have := encoder_Register_error_state c.encoder encoderFn (by rw [he]; simp)
        rw [he] at this; exact this
      subst hst
      simp only [Prod.mk.injEq, Except.error.injEq] at h
      obtain ⟨_, rfl⟩ := h
      exact ⟨rfl, fun _ => rfl, fun _ => rfl, fun _ hok => by rw [he] at hok; cases hok⟩
    · rename_i u enc he
      cases u
      split at h
      · rename_i p' dec hd
        have hst : dec = c.decoder := by
          have := decoder_Register_error_state c.decoder decoderFn (by rw [hd]; simp)
          rw [hd] at this; exact this
        subst hst
        simp only [Prod.mk.injEq, Except.error.injEq] at h
        obtain ⟨rfl, rfl⟩ := h
        refine ⟨rfl, fun hne => absurd hv hne, fun hne => ?_, fun _ _ => ⟨?_, ?_, ?_⟩⟩
        · rw [he] at hne; exact absurd rfl hne
        · rw [he]
        · obtain ⟨fn, T, _, hfn, _, hin, _, _, hnone, he'⟩ := encoder_Register_ok he
          refine ⟨fn, T, hfn, hin, hnone, ?_⟩
          show enc.encoders T = some fn
          rw [he']; exact mapSet_same _ _ _
        · obtain ⟨_, tD, _, _, hD, _, _⟩ := codec_validatePair_ok hv
          obtain ⟨fnD, w, _, hfD, _, _, _, _, hw, _, _⟩ := reflectDecoderFunc_ok hD
          subst hfD
          rw [decoder_Register_valid c.decoder hD hw] at hd
          split at hd
          · simp only [Prod.mk.injEq, Except.error.injEq, and_true] at hd
            exact ⟨_, hd.symm, rfl⟩
          · simp at hd
      · simp at h

theorem codec_register_failure_state_witness :
    ((NewCodec.Register (some encodeMyMessage) (some decodeMyMessage)).2.Register
        (some encodeInput) (some decodeInput)).2.encoder
      = ((NewCodec.Register (some encodeMyMessage) (some decodeMyMessage)).2.encoder.Register
          (some encodeInput)).2 ∧
    (∃ fn T, some encodeInput = some fn ∧ fn.typ.In 0 = .ok T ∧
      (NewCodec.Register (some encodeMyMessage) (some decodeMyMessage)).2.encoder.encoders T
        = none ∧
      ((NewCodec.Register (some encodeMyMessage) (some decodeMyMessage)).2.Register
        (some encodeInput) (some decodeInput)).2.encoder.encoders T = some fn) ∧
    (∃ err, Panic.error (.wrapf .ErrDecoderAlreadyRegistered "fn()") = .error err ∧
      err.wraps = some .ErrDecoderAlreadyRegistered) :=
  (codec_register_failure_state
    (NewCodec.Register (some encodeMyMessage) (some decodeMyMessage)).2 _
    (some encodeInput) (some decodeInput)
    (.error (.wrapf .ErrDecoderAlreadyRegistered "fn()")) rfl).2.2.2 rfl rfl

/-! ## C6 and C7 -/

/-- C6: on an encoder registry that holds a registration for `T`, `Register` of
any valid callable with parameter type `T` panics with an error wrapping
`ErrEncoderAlreadyRegistered` and leaves the registry as it was, so `T` is still
mapped to the callable registered first and every `Encode` is answered as before;
likewise on a decoder registry, with `ErrDecoderAlreadyRegistered`. -/
theorem register_duplicate_rejected (e : encoder) (d : decoder)
    (encoderFn decoderFn : Callable) (tE tD T W : GoType) (oldE oldD : FnValue)
    (hE : reflectEncoderFunc encoderFn = .ok tE) (hT : tE.In 0 = .ok T)
    (hoE : e.encoders T = some oldE)
    (hD : reflectDecoderFunc decoderFn = .ok tD) (hW : tD.In 0 = .ok W)
    (hoD : d.decoders W = some oldD) :
    (∃ err, e.Register encoderFn = (.error (.error err), e) ∧
      err.wraps = some .ErrEncoderAlreadyRegistered) ∧
    (e.Register encoderFn).2.encoders T = some oldE ∧
    (∀ msg, (e.Register encoderFn).2.Encode msg = e.Encode msg) ∧
    (∃ err, d.Register decoderFn = (.error (.error err), d) ∧
      err.wraps = some .ErrDecoderAlreadyRegistered) ∧
    (d.Register decoderFn).2.decoders W = some oldD ∧
    (∀ msg, (d.Register decoderFn).2.Decode msg = d.Decode msg) := by
  obtain ⟨fnE, a, o, hfE, _, _, _, _, ha, ho, _⟩ := reflectEncoderFunc_ok hE
  obtain ⟨fnD, w, _, hfD, _, _, _, _, hw, _, _⟩ := reflectDecoderFunc_ok hD
  subst hfE hfD
  rw [hT] at ha; cases ha
  rw [hW] at hw; cases hw
  have h1 := encoder_Register_valid e hE hT ho
  have h2 := decoder_Register_valid d hD hW
  simp only [hoE, Option.isSome_some, if_true] at h1
  simp only [hoD, Option.isSome_some, if_true] at h2
  rw [h1, h2]
  exact ⟨⟨_, rfl, rfl⟩, hoE, fun _ => rfl, ⟨_, rfl, rfl⟩, hoD, fun _ => rfl⟩

theorem register_duplicate_rejected_witness :
    (∃ err, (NewEncoder.Register (some encodeMyMessage)).2.Register (some encodeMyMessage)
        = (.error (.error err), (NewEncoder.Register (some encodeMyMessage)).2) ∧
      err.wraps = some .ErrEncoderAlreadyRegistered) ∧
    (∃ err, (NewDecoder.Register (some decodeMyMessage)).2.Register (some decodeInput)
        = (.error (.error err), (NewDecoder.Register (some decodeMyMessage)).2) ∧
      err.wraps = some .ErrDecoderAlreadyRegistered) :=
  have h := register_duplicate_rejected
    (NewEncoder.Register (some encodeMyMessage)).2
    (NewDecoder.Register (some decodeMyMessage)).2
    (some encodeMyMessage) (some decodeInput)
    (.func [.ptr myMessage] [.ptr timestamppbTimestamp] false)
    (.func [.ptr timestamppbTimestamp] [.ptr input] false)
    (.ptr myMessage) (.ptr timestamppbTimestamp) encodeMyMessage decodeMyMessage
    rfl rfl rfl rfl rfl rfl
  ⟨h.1, h.2.2.2.1⟩

/-- C7: a value type and the pointer to it are distinct keys at lookup.  On an
encoder registry whose only registration is for `T`, `Encode` of a value of type
`*T` returns a nil message and an error wrapping `ErrEncoderNotRegistered`; on a
registry whose only registration is for `*T`, so does `Encode` of a value of type
`T`.  The outcome is the lookup miss whatever the registered callable is (also a
callable whose invocation would panic): it is not invoked. -/
theorem encode_value_pointer_distinct (e1 e2 : encoder) (T : GoType) (p v : GoValue)
    (h1 : ∀ k, (e1.encoders k).isSome = true ↔ k = T)
    (h2 : ∀ k, (e2.encoders k).isSome = true ↔ k = .ptr T)
    (hp : p.typ = .ptr T) (hv : v.typ = T) :
    (∃ err, e1.Encode (some p) = .ok (none, some err) ∧
      err.wraps = some .ErrEncoderNotRegistered) ∧
    (∃ err, e2.Encode (some v) = .ok (none, some err) ∧
      err.wraps = some .ErrEncoderNotRegistered) := by
  have m1 : e1.encoders p.typ = none := by
    have := (h1 p.typ).not.mpr (by rw [hp]; exact GoType.ptr_ne_self T)
    simpa using this
  have m2 : e2.encoders v.typ = none := by
    have := (h2 v.typ).not.mpr (by rw [hv]; exact (GoType.ptr_ne_self T).symm)
    simpa using this
  rw [encoder_Encode_miss e1 p m1, encoder_Encode_miss e2 v m2]
  exact ⟨⟨_, rfl, rfl⟩, ⟨_, rfl, rfl⟩⟩

theorem encode_value_pointer_distinct_witness :
    (∃ err, (NewEncoder.Register (some (constFn input (.ptr timestamppbTimestamp)
        (some ⟨.ptr timestamppbTimestamp, 7⟩)))).2.Encode (some ⟨.ptr input, 0⟩)
        = .ok (none, some err) ∧ err.wraps = some .ErrEncoderNotRegistered) ∧
    (∃ err, (NewEncoder.Register (some (constFn (.ptr input) (.ptr timestamppbTimestamp)
        (some ⟨.ptr timestamppbTimestamp, 7⟩)))).2.Encode (some ⟨input, 0⟩)
        = .ok (none, some err) ∧ err.wraps = some .ErrEncoderNotRegistered) :=
  encode_value_pointer_distinct
    (NewEncoder.Register (some (constFn input (.ptr timestamppbTimestamp)
      (some ⟨.ptr timestamppbTimestamp, 7⟩)))).2
    (NewEncoder.Register (some (constFn (.ptr input) (.ptr timestamppbTimestamp)
      (some ⟨.ptr timestamppbTimestamp, 7⟩)))).2
    input ⟨.ptr input, 0⟩ ⟨input, 0⟩
    (fun k => by
      show (mapSet _ input _ k).isSome = true ↔ k = input
      by_cases hk : k = input <;> simp [mapSet, hk, NewEncoder])
    (fun k => by
      show (mapSet _ (.ptr input) _ k).isSome = true ↔ k = .ptr input
      by_cases hk : k = .ptr input <;> simp [mapSet, hk, NewEncoder])
    rfl rfl

/-! ## C8 and C9 -/

/-- C8: `Encoder.Register` on an empty registry reports the fault of the first
violated rule, in this order: a nil callable gives `ErrEncoderNil`, a value that
is not a function `ErrEncoderNotAFunction`, a parameter count other than one
`ErrEncoderInputLengthMissMatch`, a result count other than one
`ErrEncoderOutputLengthMissMatch`, a result type that does not implement
`proto.Message` `ErrEncoderOutputInvalid`; the registry is left empty in each
case, and the registration succeeds exactly when no rule is violated.  A nil
callable is the nil interface value, as in `TestRegisterEncoder`. -/
theorem encoder_register_first_violation (encoderFn : Callable) :
    (encoderFn = none → NewEncoder.Register encoderFn
      = (.error (.error (.ofSentinel .ErrEncoderNil)), NewEncoder)) ∧
    (∀ fn, encoderFn = some fn → fn.typ.Kind ≠ .Func → NewEncoder.Register encoderFn
      = (.error (.error (.ofSentinel .ErrEncoderNotAFunction)), NewEncoder)) ∧
    (∀ fn n, encoderFn = some fn → fn.typ.Kind = .Func → fn.typ.NumIn = .ok n → n ≠ 1 →
      NewEncoder.Register encoderFn
      = (.error (.error (.ofSentinel .ErrEncoderInputLengthMissMatch)), NewEncoder)) ∧
    (∀ fn m, encoderFn = some fn → fn.typ.Kind = .Func → fn.typ.NumIn = .ok 1 →
      fn.typ.NumOut = .ok m → m ≠ 1 → NewEncoder.Register encoderFn
      = (.error (.error (.ofSentinel .ErrEncoderOutputLengthMissMatch)), NewEncoder)) ∧
    (∀ fn o, encoderFn = some fn → fn.typ.Kind = .Func → fn.typ.NumIn = .ok 1 →
      fn.typ.NumOut = .ok 1 → fn.typ.Out 0 = .ok o → o.Implements protoType = false →
      NewEncoder.Register encoderFn
      = (.error (.error (.ofSentinel .ErrEncoderOutputInvalid)), NewEncoder)) ∧
    ((NewEncoder.Register encoderFn).1 = .ok () ↔
      ∃ fn o, encoderFn = some fn ∧ fn.typ.Kind = .Func ∧ fn.typ.NumIn = .ok 1 ∧
        fn.typ.NumOut = .ok 1 ∧ fn.typ.Out 0 = .ok o ∧ o.Implements protoType = true) := by
  refine ⟨?_, ?_, ?_, ?_, ?_, ?_⟩
  · rintro rfl
    rfl
  · rintro fn rfl hk
    simp [encoder.Register, reflectEncoderFunc, hk]
  · rintro fn n rfl hk hn hne
    simp [encoder.Register, reflectEncoderFunc, hk, hn, hne]
  · rintro fn m rfl hk hn hm hne
    simp [encoder.Register, reflectEncoderFunc, hk, hn, hm, hne]
  · rintro fn o rfl hk hn hm ho hi
    simp [encoder.Register, reflectEncoderFunc, hk, hn, hm, ho, hi]
  · constructor
    · intro h
      cases hr : reflectEncoderFunc encoderFn with
      | error p => rw [encoder_Register_invalid NewEncoder hr] at h; simp at h
      | ok t =>
        obtain ⟨fn, _, o, hfn, ht, hk, hn, hm, _, ho, hi⟩ := reflectEncoderFunc_ok hr
        subst ht
        exact ⟨fn, o, hfn, hk, hn, hm, ho, hi⟩
    · rintro ⟨fn, o, rfl, hk, hn, hm, ho, hi⟩
      obtain ⟨a, ha⟩ := GoType.In_of_NumIn fn.typ hn
      have hr : reflectEncoderFunc (some fn) = .ok fn.typ := by
        simp [reflectEncoderFunc, hk, hn, hm, ho, hi]
      rw [encoder_Register_valid NewEncoder hr ha ho]
      simp [NewEncoder]

theorem encoder_register_first_violation_witness :
    (NewEncoder.Register (some (constFn input (.ptr emptypbEmpty)
      (some ⟨.ptr emptypbEmpty, 0⟩)))).1 = .ok () ∧
    (NewEncoder.Register (some (constFn (.ptr input) (.ptr emptypbEmpty)
      (some ⟨.ptr emptypbEmpty, 0⟩)))).1 = .ok () ∧
    (NewEncoder.Register (some (constFn (.ptr input) protoType none))).1 = .ok () ∧
    NewEncoder.Register (some (constFn (.ptr input) (.ptr input) (some ⟨.ptr input, 0⟩)))
      = (.error (.error (.ofSentinel .ErrEncoderOutputInvalid)), NewEncoder) ∧
    NewEncoder.Register (some ⟨.func [.ptr input] [] false, none⟩)
      = (.error (.error (.ofSentinel .ErrEncoderOutputLengthMissMatch)), NewEncoder) ∧
    NewEncoder.Register (some ⟨.func [] [] false, none⟩)
      = (.error (.error (.ofSentinel .ErrEncoderInputLengthMissMatch)), NewEncoder) ∧
    NewEncoder.Register (some ⟨input, none⟩)
      = (.error (.error (.ofSentinel .ErrEncoderNotAFunction)), NewEncoder) ∧
    NewEncoder.Register none
      = (.error (.error (.ofSentinel .ErrEncoderNil)), NewEncoder) :=
  ⟨(encoder_register_first_violation _).2.2.2.2.2.2
      ⟨_, .ptr emptypbEmpty, rfl, rfl, rfl, rfl, rfl, by decide⟩,
    (encoder_register_first_violation _).2.2.2.2.2.2
      ⟨_, .ptr emptypbEmpty, rfl, rfl, rfl, rfl, rfl, by decide⟩,
    (encoder_register_first_violation _).2.2.2.2.2.2
      ⟨_, protoType, rfl, rfl, rfl, rfl, rfl, by decide⟩,
    (encoder_register_first_violation _).2.2.2.2.1 _ (.ptr input) rfl rfl rfl rfl rfl
      (by decide),
    (encoder_register_first_violation _).2.2.2.1 _ 0 rfl rfl rfl rfl (by decide),
    (encoder_register_first_violation _).2.2.1 _ 0 rfl rfl rfl (by decide),
    (encoder_register_first_violation _).2.1 _ rfl (by decide),
    (encoder_register_first_violation none).1 rfl⟩

/-- C9: `Decoder.Register` on an empty registry reports the fault of the first
violated rule, in this order: a nil callable gives `ErrDecoderNil`, a value that
is not a function `ErrDecoderNotAFunction`, a parameter count other than one
`ErrDecoderInputLengthMissMatch`, a result count other than one
`ErrDecoderOutputLengthMissMatch`, a parameter type that does not implement
`proto.Message` `ErrDecoderInputInvalid`; the registry is left empty in each
case, and the registration succeeds exactly when no rule is violated, whatever
the result type is.  A nil callable is the nil interface value, as in
`TestRegisterDecoder`. -/
theorem decoder_register_first_violation (decoderFn : Callable) :
    (decoderFn = none → NewDecoder.Register decoderFn
      = (.error (.error (.ofSentinel .ErrDecoderNil)), NewDecoder)) ∧
    (∀ fn, decoderFn = some fn → fn.typ.Kind ≠ .Func → NewDecoder.Register decoderFn
      = (.error (.error (.ofSentinel .ErrDecoderNotAFunction)), NewDecoder)) ∧
    (∀ fn n, decoderFn = some fn → fn.typ.Kind = .Func → fn.typ.NumIn = .ok n → n ≠ 1 →
      NewDecoder.Register decoderFn
      = (.error (.error (.ofSentinel .ErrDecoderInputLengthMissMatch)), NewDecoder)) ∧
    (∀ fn m, decoderFn = some fn → fn.typ.Kind = .Func → fn.typ.NumIn = .ok 1 →
      fn.typ.NumOut = .ok m → m ≠ 1 → NewDecoder.Register decoderFn
      = (.error (.error (.ofSentinel .ErrDecoderOutputLengthMissMatch)), NewDecoder)) ∧
    (∀ fn a, decoderFn = some fn → fn.typ.Kind = .Func → fn.typ.NumIn = .ok 1 →
      fn.typ.NumOut = .ok 1 → fn.typ.In 0 = .ok a → a.Implements protoType = false →
      NewDecoder.Register decoderFn
      = (.error (.error (.ofSentinel .ErrDecoderInputInvalid)), NewDecoder)) ∧
    ((NewDecoder.Register decoderFn).1 = .ok () ↔
      ∃ fn a, decoderFn = some fn ∧ fn.typ.Kind = .Func ∧ fn.typ.NumIn = .ok 1 ∧
        fn.typ.NumOut = .ok 1 ∧ fn.typ.In 0 = .ok a ∧ a.Implements protoType = true) := by
  refine ⟨?_, ?_, ?_, ?_, ?_, ?_⟩
  · rintro rfl
    rfl
  · rintro fn rfl hk
    simp [decoder.Register, reflectDecoderFunc, hk]
  · rintro fn n rfl hk hn hne
    simp [decoder.Register, reflectDecoderFunc, hk, hn, hne]
  · rintro fn m rfl hk hn hm hne
    simp [decoder.Register, reflectDecoderFunc, hk, hn, hm, hne]
  · rintro fn a rfl hk hn hm ha hi
    simp [decoder.Register, reflectDecoderFunc, hk, hn, hm, ha, hi]
  · constructor
    · intro h
      obtain ⟨fn, a, hfn, hr, ha, hi, _, _⟩ :=
        @decoder_Register_ok NewDecoder (NewDecoder.Register decoderFn).2 decoderFn
          (Prod.ext h rfl)
      obtain ⟨fn', _, _, hfn', _, hk, hn, hm, _, _, _⟩ := reflectDecoderFunc_ok hr
      rw [hfn] at hfn'; cases hfn'
      exact ⟨fn, a, hfn, hk, hn, hm, ha, hi⟩
    · rintro ⟨fn, a, rfl, hk, hn, hm, ha, hi⟩
      have hr : reflectDecoderFunc (some fn) = .ok fn.typ := by
        simp [reflectDecoderFunc, hk, hn, hm, ha, hi]
      rw [decoder_Register_valid NewDecoder hr ha]
      simp [NewDecoder]

theorem decoder_register_first_violation_witness :
    (NewDecoder.Register (some (constFn (.ptr timestamppbTimestamp) (.ptr input)
      (some ⟨.ptr input, 0⟩)))).1 = .ok () ∧
    (NewDecoder.Register (some (constFn (.ptr timestamppbTimestamp) input
      (some ⟨input, 0⟩)))).1 = .ok () ∧
    (NewDecoder.Register (some (constFn protoType (.ptr input)
      (some ⟨.ptr input, 0⟩)))).1 = .ok () ∧
    NewDecoder.Register (some (constFn (.ptr input) (.ptr input) (some ⟨.ptr input, 0⟩)))
      = (.error (.error (.ofSentinel .ErrDecoderInputInvalid)), NewDecoder) ∧
    NewDecoder.Register (some ⟨.func [.ptr input] [] false, none⟩)
      = (.error (.error (.ofSentinel .ErrDecoderOutputLengthMissMatch)), NewDecoder) ∧
    NewDecoder.Register (some ⟨.func [] [] false, none⟩)
      = (.error (.error (.ofSentinel .ErrDecoderInputLengthMissMatch)), NewDecoder) ∧
    NewDecoder.Register (some ⟨input, none⟩)
      = (.error (.error (.ofSentinel .ErrDecoderNotAFunction)), NewDecoder) ∧
    NewDecoder.Register none
      = (.error (.error (.ofSentinel .ErrDecoderNil)), NewDecoder) :=
  ⟨(decoder_register_first_violation _).2.2.2.2.2.2
      ⟨_, .ptr timestamppbTimestamp, rfl, rfl, rfl, rfl, rfl, by decide⟩,
    (decoder_register_first_violation _).2.2.2.2.2.2
      ⟨_, .ptr timestamppbTimestamp, rfl, rfl, rfl, rfl, rfl, by decide⟩,
    (decoder_register_first_violation _).2.2.2.2.2.2
      ⟨_, protoType, rfl, rfl, rfl, rfl, rfl, by decide⟩,
    (decoder_register_first_violation _).2.2.2.2.1 _ (.ptr input) rfl rfl rfl rfl rfl
      (by decide),
    (decoder_register_first_violation _).2.2.2.1 _ 0 rfl rfl rfl rfl (by decide),
    (decoder_register_first_violation _).2.2.1 _ 0 rfl rfl rfl (by decide),
    (decoder_register_first_violation _).2.1 _ rfl (by decide),
    (decoder_register_first_violation none).1 rfl⟩

/-! ## C10 -/

/-- C10 fails on the code for the decoder: with a valid encoder and a nil decoder,
`Codec.Register` panics in `validatePair` with the runtime fault of a nil
dereference (`reflectDecoderFunc` has no nil check), not with `ErrDecoderNil`,
the fault the standalone `Decoder.Register` raises; with a nil encoder it does
panic with `ErrEncoderNil`.  The codec is left as it was in both cases. -/
theorem codec_register_nil_callable (c : codec) (encoderFn decoderFn : Callable) (t : GoType)
    (hE : reflectEncoderFunc encoderFn = .ok t) :
    c.Register encoderFn none = (.error nilDereference, c) ∧
    nilDereference ≠ .error (.ofSentinel .ErrDecoderNil) ∧
    (c.decoder.Register none).1 = .error (.error (.ofSentinel .ErrDecoderNil)) ∧
    c.Register none decoderFn = (.error (.error (.ofSentinel .ErrEncoderNil)), c) := by
  refine ⟨?_, by decide, rfl, rfl⟩
  simp [codec.Register, codec.validatePair, hE, reflectDecoderFunc]

theorem codec_register_nil_callable_witness :
    NewCodec.Register (some encodeMyMessage) none = (.error nilDereference, NewCodec) :=
  (codec_register_nil_callable NewCodec (some encodeMyMessage) none
    (.func [.ptr myMessage] [.ptr timestamppbTimestamp] false) rfl).1

/-! ## C11, C12 and C13 -/

theorem wrapf_textContains (s : Sentinel) (a name b : String) :
    textContains (GoError.wrapf s (a ++ name ++ b)).text name :=
  ⟨s.text ++ ": " ++ a, b, by simp [GoError.wrapf, String.append_assoc]⟩

/-- C11: for every decoder registry and every non-nil message whose exact
concrete type has no registration, `Decode` returns a nil value and an error
that wraps `ErrDecoderNotRegistered` and whose text contains the printed name of
the message's concrete type.  The outcome is the same whatever the registry
holds for other types: no registered callable is invoked. -/
theorem decode_unregistered_type (d : decoder) (v : GoValue)
    (h : d.decoders v.typ = none) :
    ∃ err, d.Decode (some v) = .ok (none, some err) ∧
      err.wraps = some .ErrDecoderNotRegistered ∧
      textContains err.text v.typ.typeString := by
  rw [decoder_Decode_miss d v h]
  exact ⟨_, rfl, rfl, wrapf_textContains _ _ _ _⟩

theorem decode_unregistered_type_witness :
    ∃ err, (NewDecoder.Register (some decodeMyMessage)).2.Decode (some ⟨.ptr emptypbEmpty, 0⟩)
        = .ok (none, some err) ∧
      err.wraps = some .ErrDecoderNotRegistered ∧
      textContains err.text "*emptypb.Empty" :=
  decode_unregistered_type (NewDecoder.Register (some decodeMyMessage)).2
    ⟨.ptr emptypbEmpty, 0⟩ rfl

/-- C12, as stated, fails: the error `Decode` returns for a nil message is not a
fault of its own, it wraps `ErrDecoderNotRegistered`, the sentinel of the error
returned for a message of an unregistered type. -/
theorem decode_nil_wraps_not_registered :
    NewDecoder.Decode none
      = .ok (none, some ⟨some .ErrDecoderNotRegistered,
          "decoder for given message not registered: cannot decode a nil message"⟩) ∧
    NewDecoder.Decode (some ⟨.ptr emptypbEmpty, 0⟩)
      = .ok (none, some ⟨some .ErrDecoderNotRegistered,
          "decoder for given message not registered: message type was `*emptypb.Empty`"⟩) := by
  decide

/-- C12, amended: for every decoder registry, `Decode` of a nil message returns,
as an ordinary error next to a nil value, an error that wraps
`ErrDecoderNotRegistered` with the text "cannot decode a nil message"; it differs
from the error for an unregistered type by its text only, and the outcome does
not depend on the registry: no registered callable is invoked. -/
theorem decode_nil_message (d : decoder) :
    d.Decode none
      = .ok (none, some (.wrapf .ErrDecoderNotRegistered "cannot decode a nil message")) ∧
    (∀ v : GoValue, d.Decode (some v) ≠ d.Decode none) := by
  refine ⟨rfl, fun v h => ?_⟩
  cases hk : d.decoders v.typ with
  | none =>
    rw [decoder_Decode_miss d v hk] at h
    simp only [decoder.Decode, GoError.wrapf, Except.ok.injEq, Prod.mk.injEq, true_and,
      Option.some.injEq, GoError.mk.injEq] at h
    have hd := congrArg String.data h
    simp only [String.data_append, List.append_assoc, List.append_cancel_left_eq] at hd
    simp [String.data] at hd
  | some fn =>
    simp only [decoder.Decode, ite_self, hk] at h
    cases hc : fn.Call v with
    | error p => simp [hc] at h
    | ok result => simp [hc] at h

/-- C13 fails on the code for the nil argument: `Encode(nil)` panics with the
runtime fault of a nil dereference (`reflect.TypeOf(nil)` is nil and `Kind()` is
called on it), whatever the registry holds, instead of returning
`ErrEncoderNotRegistered`.  For a non-nil argument whose type has no
registration `Encode` does return a nil message and an error wrapping
`ErrEncoderNotRegistered`. -/
theorem encode_nil_panics (e : encoder) :
    e.Encode none = .error nilDereference ∧
    (∀ v : GoValue, e.encoders v.typ = none →
      ∃ err, e.Encode (some v) = .ok (none, some err) ∧
        err.wraps = some .ErrEncoderNotRegistered) := by
  refine ⟨rfl, fun v h => ?_⟩
  rw [encoder_Encode_miss e v h]
  exact ⟨_, rfl, rfl⟩

/-! ## C15 -/

/-- C15, as stated, fails: the callable `func(input) proto.Message { return nil }`
is accepted by `Encoder.Register`, and `Encode` of an `input` value returns an
error wrapping `ErrEncoderOutNotAProto`: the defensive check is reached. -/
theorem encode_reaches_defensive_check :
    (NewEncoder.Register (some (constFn input protoType none))).1 = .ok () ∧
    ∃ err, (NewEncoder.Register (some (constFn input protoType none))).2.Encode
        (some ⟨input, 3⟩) = .ok (none, some err) ∧
      err.wraps = some .ErrEncoderOutNotAProto :=
  ⟨by decide, _, rfl, rfl⟩

/-- C15, amended: for every function value that is not nil and not variadic and
was accepted by `Encoder.Register`, in the registry it left and in every registry
reached from it by further calls, and for every value of its exact parameter type
(the result having the declared result type), `Encode` returns the error wrapping
`ErrEncoderOutNotAProto` exactly when the callable returns the nil interface; so
it never does for a callable whose declared result type is not an interface
type, nor for a result that is not nil. -/
theorem encode_defensive_check_iff (e e' : encoder) (fn : FnValue)
    (f : GoValue → Any) (T O : GoType) (v : GoValue) (calls : List encoderCall)
    (hreg : e.Register (some fn) = (.ok (), e'))
    (hin : fn.typ.In 0 = .ok T) (hout : fn.typ.Out 0 = .ok O)
    (hvar : fn.typ.IsVariadic = .ok false)
    (hf : fn.impl = some f) (hv : v.typ = T)
    (hty : resultTyped O (f v) = true) :
    ((∃ err, (e'.afterAll calls).Encode (some v) = .ok (none, some err) ∧
        err.wraps = some .ErrEncoderOutNotAProto) ↔ f v = none) ∧
    (O.Kind ≠ .Interface → f v ≠ none) := by
  obtain ⟨hkind, hn, _⟩ := encoder_Register_shape hreg
  obtain ⟨fn', T', O', hfn, _, hin', hout', hO, _, he'⟩ := encoder_Register_ok hreg
  cases hfn
  rw [hin] at hin'; cases hin'
  rw [hout] at hout'; cases hout'
  have hk : (e'.afterAll calls).encoders v.typ = some fn := by
    apply encoder_afterAll_keeps
    rw [he', hv]; exact mapSet_same _ _ _
  rw [encoder_Encode_hit _ v fn f hk hf hkind hn hvar (hv ▸ hin)]
  constructor
  · constructor
    · rintro ⟨err, h, _⟩
      cases hr : f v with
      | none => rfl
      | some w =>
        rw [hr] at hty h
        rw [assertProto_of_resultTyped hO hty] at h
        simp at h
    · intro hnil
      rw [hnil]
      exact ⟨_, rfl, rfl⟩
  · intro hk' hnil
    rw [hnil] at hty
    simp [resultTyped, hk'] at hty

theorem encode_defensive_check_iff_witness :
    ((∃ err, ((NewEncoder.Register (some (constFn (.ptr input) protoType none))).2.afterAll
          [.Encode none, .Register (some encodeMyMessage)]).Encode
        (some ⟨.ptr input, 0⟩) = .ok (none, some err) ∧
        err.wraps = some .ErrEncoderOutNotAProto) ↔
      (fun _ => none : GoValue → Any) ⟨.ptr input, 0⟩ = none) :=
  (encode_defensive_check_iff NewEncoder _ (constFn (.ptr input) protoType none)
    (fun _ => none) (.ptr input) protoType ⟨.ptr input, 0⟩
    [.Encode none, .Register (some encodeMyMessage)]
    rfl rfl rfl rfl rfl rfl (by decide)).1

/-! ## C16 -/

theorem encoder_Encode_congr (e e' : encoder) (v : GoValue)
    (h : e'.encoders v.typ = e.encoders v.typ) : e'.Encode (some v) = e.Encode (some v) := by
  simp only [encoder.Encode, ite_self, h]

theorem decoder_Decode_congr (e e' : decoder) (v : GoValue)
    (h : e'.decoders v.typ = e.decoders v.typ) : e'.Decode (some v) = e.Decode (some v) := by
  simp only [decoder.Decode, ite_self, h]

/-- C16: registrations are append-only, on the encoder registry and on the
decoder registry alike.  A successful `Register` adds one key that was free and
leaves every other entry as it was; a failed `Register` leaves the registry as it
was (and `Encode` / `Decode` only read it); once `T` is mapped to `f`, the
registry after any sequence of calls still maps `T` to `f`; and a successful
registration for `T` does not change the answer of `Encode` / `Decode` for an
argument of any other type. -/
theorem registrations_append_only (e : encoder) (d : decoder) (fn : Callable) :
    (∀ e', e.Register fn = (.ok (), e') →
      ∃ f T, fn = some f ∧ f.typ.In 0 = .ok T ∧ e.encoders T = none ∧
        e'.encoders T = some f ∧ (∀ k, k ≠ T → e'.encoders k = e.encoders k) ∧
        (∀ v : GoValue, v.typ ≠ T → e'.Encode (some v) = e.Encode (some v)) ∧
        e'.Encode none = e.Encode none) ∧
    ((e.Register fn).1 ≠ .ok () → (e.Register fn).2 = e) ∧
    (∀ T f calls, e.encoders T = some f → (e.afterAll calls).encoders T = some f) ∧
    (∀ d', d.Register fn = (.ok (), d') →
      ∃ f T, fn = some f ∧ f.typ.In 0 = .ok T ∧ d.decoders T = none ∧
        d'.decoders T = some f ∧ (∀ k, k ≠ T → d'.decoders k = d.decoders k) ∧
        (∀ v : GoValue, v.typ ≠ T → d'.Decode (some v) = d.Decode (some v)) ∧
        d'.Decode none = d.Decode none) ∧
    ((d.Register fn).1 ≠ .ok () → (d.Register fn).2 = d) ∧
    (∀ T f calls, d.decoders T = some f → (d.afterAll calls).decoders T = some f) := by
  refine ⟨?_, encoder_Register_error_state e fn, ?_, ?_, decoder_Register_error_state d fn, ?_⟩
  · intro e' h
    obtain ⟨f, T, _, hfn, _, hin, _, _, hnone, he'⟩ := encoder_Register_ok h
    have hother : ∀ k, k ≠ T → e'.encoders k = e.encoders k := by
      intro k hk; rw [he']; exact mapSet_other _ _ hk
    refine ⟨f, T, hfn, hin, hnone, ?_, hother, ?_, rfl⟩
    · rw [he']; exact mapSet_same _ _ _
    · intro v hv
      exact encoder_Encode_congr e e' v (hother _ hv)
  · intro T f calls h
    exact encoder_afterAll_keeps calls e T f h
  · intro d' h
    obtain ⟨f, T, hfn, _, hin, _, hnone, hd'⟩ := decoder_Register_ok h
    have hother : ∀ k, k ≠ T → d'.decoders k = d.decoders k := by
      intro k hk; rw [hd']; exact mapSet_other _ _ hk
    refine ⟨f, T, hfn, hin, hnone, ?_, hother, ?_, rfl⟩
    · rw [hd']; exact mapSet_same _ _ _
    · intro v hv
      exact decoder_Decode_congr d d' v (hother _ hv)
  · intro T f calls h
    exact decoder_afterAll_keeps calls d T f h

theorem registrations_append_only_witness :
    ((NewEncoder.Register (some encodeMyMessage)).2.afterAll
      [.Register (some encodeInput), .Encode (some ⟨.ptr input, 0⟩),
        .Register (some encodeMyMessage), .Register none]).encoders (.ptr myMessage)
      = some encodeMyMessage :=
  (registrations_append_only (NewEncoder.Register (some encodeMyMessage)).2 NewDecoder
    none).2.2.1 (.ptr myMessage) encodeMyMessage _ rfl

/-! ## C17 -/

theorem GoType.ne_of_Kind {a b : GoType} (ha : a.Kind ≠ .Interface)
    (hb : b.Kind = .Interface) : a ≠ b := by
  intro h; rw [h] at ha; exact ha hb

/-- C17: a decoder of well-formed function type whose parameter type is an
interface type implementing `proto.Message` is accepted by `Decoder.Register`,
and is never dispatched: the runtime type of a value is never an interface type,
so on the registry holding that registration only, and on every registry whose
keys are all interface types, `Decode` of every message returns an error wrapping
`ErrDecoderNotRegistered`.  Likewise an encoder whose parameter type is an
interface type is accepted by `Encoder.Register` and `Encode` of every value
returns an error wrapping `ErrEncoderNotRegistered`. -/
theorem interface_input_never_dispatched (decFn encFn : FnValue) (I J O : GoType)
    (d : decoder) (e : encoder) (v : GoValue)
    (hdk : decFn.typ.Kind = .Func) (hdi : decFn.typ.NumIn = .ok 1)
    (hdo : decFn.typ.NumOut = .ok 1) (hI : decFn.typ.In 0 = .ok I)
    (hIk : I.Kind = .Interface) (hIp : I.Implements protoType = true)
    (hek : encFn.typ.Kind = .Func) (hei : encFn.typ.NumIn = .ok 1)
    (heo : encFn.typ.NumOut = .ok 1) (hJ : encFn.typ.In 0 = .ok J)
    (hJk : J.Kind = .Interface) (hO : encFn.typ.Out 0 = .ok O)
    (hOp : O.Implements protoType = true)
    (hd : ∀ k, (d.decoders k).isSome = true → k.Kind = .Interface)
    (he : ∀ k, (e.encoders k).isSome = true → k.Kind = .Interface)
    (hv : v.typ.Kind ≠ .Interface) :
    (NewDecoder.Register (some decFn)).1 = .ok () ∧
    (∃ err, (NewDecoder.Register (some decFn)).2.Decode (some v) = .ok (none, some err) ∧
      err.wraps = some .ErrDecoderNotRegistered) ∧
    (∃ err, (NewDecoder.Register (some decFn)).2.Decode none = .ok (none, some err) ∧
      err.wraps = some .ErrDecoderNotRegistered) ∧
    (∃ err, d.Decode (some v) = .ok (none, some err) ∧
      err.wraps = some .ErrDecoderNotRegistered) ∧
    (NewEncoder.Register (some encFn)).1 = .ok () ∧
    (∃ err, (NewEncoder.Register (some encFn)).2.Encode (some v) = .ok (none, some err) ∧
      err.wraps = some .ErrEncoderNotRegistered) ∧
    (∃ err, e.Encode (some v) = .ok (none, some err) ∧
      err.wraps = some .ErrEncoderNotRegistered) := by
  have hrd : reflectDecoderFunc (some decFn) = .ok decFn.typ := by
    simp [reflectDecoderFunc, hdk, hdi, hdo, hI, hIp]
  have hre : reflectEncoderFunc (some encFn) = .ok encFn.typ := by
    simp [reflectEncoderFunc, hek, hei, heo, hO, hOp]
  have hRd := decoder_Register_valid NewDecoder hrd hI
  have hRe := encoder_Register_valid NewEncoder hre hJ hO
  simp only [NewDecoder, Option.isSome_none, Bool.false_eq_true, if_false] at hRd
  simp only [NewEncoder, Option.isSome_none, Bool.false_eq_true, if_false] at hRe
  have hvI : v.typ ≠ I := GoType.ne_of_Kind hv hIk
  have hvJ : v.typ ≠ J := GoType.ne_of_Kind hv hJk
  have md : d.decoders v.typ = none := by
    cases hc : d.decoders v.typ with
    | none => rfl
    | some g => exact absurd (hd v.typ (by simp [hc])) hv
  have me : e.encoders v.typ = none := by
    cases hc : e.encoders v.typ with
    | none => rfl
    | some g => exact absurd (he v.typ (by simp [hc])) hv
  refine ⟨?_, ?_, ?_, ?_, ?_, ?_, ?_⟩
  · simp only [NewDecoder, hRd]
  · simp only [NewDecoder, hRd]
    rw [decoder_Decode_miss _ v (by simp [mapSet, hvI])]
    exact ⟨_, rfl, rfl⟩
  · exact ⟨_, rfl, rfl⟩
  · rw [decoder_Decode_miss d v md]
    exact ⟨_, rfl, rfl⟩
  · simp only [NewEncoder, hRe]
  · simp only [NewEncoder, hRe]
    rw [encoder_Encode_miss _ v (by simp [mapSet, hvJ])]
    exact ⟨_, rfl, rfl⟩
  · rw [encoder_Encode_miss e v me]
    exact ⟨_, rfl, rfl⟩

theorem interface_input_never_dispatched_witness :
    (NewDecoder.Register (some (constFn protoType (.ptr input) (some ⟨.ptr input, 0⟩)))).1
      = .ok () ∧
    (∃ err, (NewDecoder.Register (some (constFn protoType (.ptr input)
        (some ⟨.ptr input, 0⟩)))).2.Decode (some ⟨.ptr timestamppbTimestamp, 7⟩)
        = .ok (none, some err) ∧ err.wraps = some .ErrDecoderNotRegistered) ∧
    (∃ err, (NewEncoder.Register (some (constFn protoType (.ptr timestamppbTimestamp)
        (some ⟨.ptr timestamppbTimestamp, 7⟩)))).2.Encode
        (some ⟨.ptr timestamppbTimestamp, 7⟩)
        = .ok (none, some err) ∧ err.wraps = some .ErrEncoderNotRegistered) :=
  have h := interface_input_never_dispatched
    (constFn protoType (.ptr input) (some ⟨.ptr input, 0⟩))
    (constFn protoType (.ptr timestamppbTimestamp) (some ⟨.ptr timestamppbTimestamp, 7⟩))
    protoType protoType (.ptr timestamppbTimestamp) NewDecoder NewEncoder
    ⟨.ptr timestamppbTimestamp, 7⟩
    rfl rfl rfl rfl rfl (by decide) rfl rfl rfl rfl rfl rfl (by decide)
    (fun k hk => by simp [NewDecoder] at hk) (fun k hk => by simp [NewEncoder] at hk)
    (by decide)
  ⟨h.1, h.2.1, h.2.2.2.2.2.1⟩

/-! ## C18 and C19 -/

/-- C18 fails on the code: a nil function value of a well-formed function type
is not the nil interface, so it passes the nil check and every signature check of
`Encoder.Register` and of `Decoder.Register` and is stored; `Encode` and `Decode`
of a value of its parameter type then call it, which is the `reflect` panic
"call of nil function". -/
theorem nil_function_value_is_registered :
    (NewEncoder.Register (some nilEncoderFunc)).1 = .ok () ∧
    (NewEncoder.Register (some nilEncoderFunc)).2.Encode (some ⟨.ptr input, 0⟩)
      = .error (.runtime "reflect.Value.Call: call of nil function") ∧
    (NewDecoder.Register (some nilDecoderFunc)).1 = .ok () ∧
    (NewDecoder.Register (some nilDecoderFunc)).2.Decode (some ⟨.ptr timestamppbTimestamp, 7⟩)
      = .error (.runtime "reflect.Value.Call: call of nil function") := by
  decide

/-- C19 fails on the code for pointer types: the duplicate fault of
`Decoder.Register` prints `argType.Name()`, which is empty for a pointer type, so
for the occupied key `*timestamppb.Timestamp` the text is
"decoder function already registered: fn()" and names no type; the fault does
wrap `ErrDecoderAlreadyRegistered`.  The encoder side prints
`argType.String()` and its text contains `*protoenc_test.myMessage`. -/
theorem decoder_duplicate_text_for_pointer :
    ((NewDecoder.Register (some decodeMyMessage)).2.Register (some decodeInput)).1
      = .error (.error ⟨some .ErrDecoderAlreadyRegistered,
          "decoder function already registered: fn()"⟩) ∧
    ¬ textContains "decoder function already registered: fn()" "Timestamp" ∧
    ((NewEncoder.Register (some encodeMyMessage)).2.Register (some encodeMyMessage)).1
      = .error (.error ⟨some .ErrEncoderAlreadyRegistered,
          "encoder function already registered: func (*protoenc_test.myMessage) *timestamppb.Timestamp \x7b ... \x7d"⟩) ∧
    textContains
      "encoder function already registered: func (*protoenc_test.myMessage) *timestamppb.Timestamp \x7b ... \x7d"
      "*protoenc_test.myMessage" := by
  refine ⟨by decide, ?_, by decide, ?_⟩
  · rintro ⟨pre, post, h⟩
    have hd := congrArg String.data h
    simp only [String.data_append] at hd
    have hT : 'T' ∈ pre.data ++ ['T', 'i', 'm', 'e', 's', 't', 'a', 'm', 'p'] ++ post.data := by
      simp
    rw [← hd] at hT
    revert hT
    decide
  · exact ⟨"encoder function already registered: func (",
      ") *timestamppb.Timestamp \x7b ... \x7d", by decide⟩
